import Mathlib

/-!
Shallow embedding of the daily-installment loan ledger: the EMI schedule
generator (`src/src/socket.js`, `generateEMISchedule`), the overdue sweep
(`processOverdueEMIs`), the settlement entry points
(`src/src/routes/payment.js`: `/simulate`, `/verify`, `/verify-autopay`;
`src/src/routes/admin.js`: `/emis/:id/mark-paid`; the Razorpay webhook
handler `handleSubscriptionCharged`), and the Loan/EMI data model
(`loanSchema` with its pre-save hook, `emiSchema`).

Modelling conventions:
* JS `Date` values truncated to midnight are integer day indices (`ℤ`); the
  "current time" is passed explicitly as a `today`/`now` parameter.
* JS numbers are idealised as exact arithmetic.  All money amounts produced
  by the code are integers (`ℤ`) except `totalInterest = amount * 0.20` and
  the loan's `remainingBalance`, which are rationals (`ℚ`).
* The state models one loan together with its installments; every route
  looks up installments of a single loan by id, and within a loan an
  installment is identified by its (unique) `dayNumber`.
* HMAC-SHA256 is abstracted as an arbitrary function
  `hmac : String → String → String` of the secret and the canonical string;
  the code observes it only through string equality with the supplied
  signature.
-/

namespace LoanLedger

/-- Status of a single installment, mirroring the `status` enum of
`emiSchema`: `['pending', 'paid', 'overdue']`. -/
inductive EmiStatus where
  | pending
  | paid
  | overdue
deriving DecidableEq, Repr

/-- Loan lifecycle status, mirroring the `status` enum of `loanSchema`:
`['pending', 'approved', 'rejected', 'completed']`. -/
inductive LoanStatus where
  | pending
  | approved
  | rejected
  | completed
deriving DecidableEq, Repr

/-- Autopay sub-state, mirroring the `autopayStatus` enum of `loanSchema`:
`['none', 'pending', 'active', 'paused', 'cancelled']`. -/
inductive AutopayStatus where
  | none
  | pending
  | active
  | paused
  | cancelled
deriving DecidableEq, Repr

/-- One installment record (`emiSchema`, src/unnamed/part_000).  `loanId` and
`userId` are implicit: the state holds the installments of one loan. -/
structure EMI where
  dayNumber : ℕ
  principalAmount : ℤ
  interestAmount : ℤ
  penaltyAmount : ℤ
  totalAmount : ℤ
  dueDate : ℤ
  status : EmiStatus
  razorpayPaymentId : Option String := Option.none
  paidAt : Option ℤ := Option.none
deriving DecidableEq, Repr

/-- The loan record (`loanSchema`, src/unnamed/part_001), restricted to the
fields the ledger logic reads or writes.  `remainingBalance` is rational
because the pre-save hook sets it to `amount + amount * interestRate/100`
without rounding. -/
structure Loan where
  amount : ℤ
  totalDays : ℕ
  interestRate : ℤ := 20
  totalPaid : ℤ := 0
  remainingBalance : ℚ := 0
  penaltyAmount : ℤ := 0
  status : LoanStatus := .pending
  startDate : Option ℤ := Option.none
  endDate : Option ℤ := Option.none
  approvedAt : Option ℤ := Option.none
  autopayEnabled : Bool := false
  autopayStatus : AutopayStatus := .none
deriving DecidableEq, Repr

/-- A loan together with its installment ledger. -/
structure LedgerState where
  loan : Loan
  emis : List EMI
deriving DecidableEq, Repr

/-! ## Schedule generation (src/src/socket.js:307-349 `generateEMISchedule`) -/

/-- `const totalInterest = loan.amount * 0.20` (socket.js:314).  The rate is
hard-coded to 20% in the generator; the admin approval route also fixes
`loan.interestRate = 20` (admin.js:192). -/
def totalInterest (amount : ℤ) : ℚ := (amount : ℚ) * (20 / 100)

/-- `const dailyPrincipal = Math.ceil(loan.amount / loan.totalDays)`
(socket.js:315). -/
def dailyPrincipal (amount : ℤ) (totalDays : ℕ) : ℤ :=
  ⌈(amount : ℚ) / (totalDays : ℚ)⌉

/-- `const dailyInterest = Math.ceil(totalInterest / loan.totalDays)`
(socket.js:316). -/
def dailyInterest (amount : ℤ) (totalDays : ℕ) : ℤ :=
  ⌈totalInterest amount / (totalDays : ℚ)⌉

/-- The installment records created by the generator loop (socket.js:318-335):
one per `day ∈ {1..totalDays}`, with `dueDate = startDate + (day - 1)` where
`startDate = today + 1` (the next day, time-truncated to midnight,
socket.js:310-312), zero penalty and status `pending`. -/
def generateEMIs (amount : ℤ) (totalDays : ℕ) (today : ℤ) : List EMI :=
  (List.range' 1 totalDays).map fun day =>
    { dayNumber := day
      principalAmount := dailyPrincipal amount totalDays
      interestAmount := dailyInterest amount totalDays
      penaltyAmount := 0
      totalAmount := dailyPrincipal amount totalDays + dailyInterest amount totalDays
      dueDate := today + 1 + (day : ℤ) - 1
      status := .pending }

/-- Ledger state immediately after admin approval of a loan: the approval
route (admin.js:160-230) validates the parameters, sets
`status := approved` and `interestRate := 20`, and calls
`generateEMISchedule`, which inserts the installments and sets the loan's
`startDate = today + 1`, `endDate = startDate + totalDays - 1`,
`approvedAt` (socket.js:340-346); the `loanSchema.pre('save')` hook
(src/unnamed/part_001:105-114) has set
`remainingBalance = amount + amount * (interestRate/100)`. -/
def approveLoan (amount : ℤ) (totalDays : ℕ) (today : ℤ) : LedgerState :=
  { loan :=
      { amount := amount
        totalDays := totalDays
        interestRate := 20
        totalPaid := 0
        remainingBalance := (amount : ℚ) + (amount : ℚ) * ((20 : ℚ) / 100)
        penaltyAmount := 0
        status := .approved
        startDate := some (today + 1)
        endDate := some (today + 1 + (totalDays : ℤ) - 1)
        approvedAt := some today
        autopayEnabled := false
        autopayStatus := .none }
    emis := generateEMIs amount totalDays today }

/-! ## Computable forms of the ceilings, for evaluation at concrete inputs -/

/-- `Math.ceil(a / n)` for an integer numerator as integer division. -/
theorem dailyPrincipal_eval (amount : ℤ) (totalDays : ℕ) :
    dailyPrincipal amount totalDays = -(-amount / (totalDays : ℤ)) := by
  unfold dailyPrincipal
  rw [show ((amount : ℚ) / (totalDays : ℚ)) = -(-((amount : ℚ) / (totalDays : ℚ))) by ring,
    Int.ceil_neg, ← neg_div, ← Int.cast_neg, Rat.floor_intCast_div_natCast]

/-- `Math.ceil(amount * 0.20 / n) = Math.ceil(amount / (5n))` as integer
division. -/
theorem dailyInterest_eval (amount : ℤ) (totalDays : ℕ) (h : 0 < totalDays) :
    dailyInterest amount totalDays = -(-amount / ((5 * totalDays : ℕ) : ℤ)) := by
  unfold dailyInterest totalInterest
  have hn : (totalDays : ℚ) ≠ 0 := Nat.cast_ne_zero.mpr h.ne'
  have h5 : ((amount : ℚ) * (20 / 100)) / (totalDays : ℚ)
      = (amount : ℚ) / ((5 * totalDays : ℕ) : ℚ) := by
    push_cast
    field_simp
    ring
  rw [h5, show ((amount : ℚ) / ((5 * totalDays : ℕ) : ℚ))
      = -(-((amount : ℚ) / ((5 * totalDays : ℕ) : ℚ))) by ring,
    Int.ceil_neg, ← neg_div, ← Int.cast_neg, Rat.floor_intCast_div_natCast]

/-! ## Ceiling over-allocation bounds -/

/-- Lower bound: distributing `x` over `n` ceiled shares loses nothing. -/
theorem le_mul_ceil_div (x : ℚ) {n : ℕ} (hn : 0 < n) :
    ⌈x⌉ ≤ (n : ℤ) * ⌈x / (n : ℚ)⌉ := by
  have hq : (0 : ℚ) < (n : ℚ) := by exact_mod_cast hn
  have h1 : x / (n : ℚ) ≤ (⌈x / (n : ℚ)⌉ : ℚ) := Int.le_ceil _
  have h2 : x ≤ ((n : ℤ) * ⌈x / (n : ℚ)⌉ : ℤ) := by
    push_cast
    calc x = (n : ℚ) * (x / (n : ℚ)) := by field_simp
    _ ≤ (n : ℚ) * (⌈x / (n : ℚ)⌉ : ℚ) := by
          exact mul_le_mul_of_nonneg_left h1 hq.le
  exact Int.ceil_le.mpr h2

/-- Upper bound: distributing `x` over `n` ceiled shares over-allocates by at
most `n - 1` units. -/
theorem mul_ceil_div_le (x : ℚ) {n : ℕ} (hn : 0 < n) :
    (n : ℤ) * ⌈x / (n : ℚ)⌉ ≤ ⌈x⌉ + ((n : ℤ) - 1) := by
  have hq : (0 : ℚ) < (n : ℚ) := by exact_mod_cast hn
  have h1 : (⌈x / (n : ℚ)⌉ : ℚ) < x / (n : ℚ) + 1 := Int.ceil_lt_add_one _
  have h2 : ((n : ℤ) * ⌈x / (n : ℚ)⌉ : ℤ) < ((⌈x⌉ + (n : ℤ) : ℤ) : ℚ) := by
    push_cast
    calc (n : ℚ) * (⌈x / (n : ℚ)⌉ : ℚ)
        < (n : ℚ) * (x / (n : ℚ) + 1) := by
          exact mul_lt_mul_of_pos_left h1 hq
    _ = x + (n : ℚ) := by field_simp
    _ ≤ (⌈x⌉ : ℚ) + (n : ℚ) := by
          have := Int.le_ceil x
          linarith
  have h3 : (n : ℤ) * ⌈x / (n : ℚ)⌉ < ⌈x⌉ + (n : ℤ) := by exact_mod_cast h2
  omega

/-! ## Settlement operations (src/src/routes/payment.js, admin.js, webhook) -/

/-- `status: { $ne: 'paid' }`, the query predicate selecting unpaid
installments. -/
def notPaid (e : EMI) : Bool := e.status != .paid

/-- The per-installment mutation common to every settlement path:
`emi.status = 'paid'; emi.razorpayPaymentId = ref; emi.paidAt = new Date()`. -/
def markPaid (ref : String) (now : ℤ) (e : EMI) : EMI :=
  { e with status := .paid, razorpayPaymentId := some ref, paidAt := some now }

/-- `EMI.findById` + `emi.save()`: replace the (unique) installment with the
given `dayNumber` by the updated document. -/
def updateFirstByDay (day : ℕ) (f : EMI → EMI) : List EMI → List EMI
  | [] => []
  | e :: rest =>
      if e.dayNumber = day then f e :: rest else e :: updateFirstByDay day f rest

/-- Post-settlement loan aggregate update shared verbatim by `/simulate`
(payment.js:56-77), `/verify` (payment.js:237-258) and the admin mark-paid
route (admin.js:351-362): mark the installment paid, then
`loan.totalPaid += emi.totalAmount`,
`loan.remainingBalance -= (emi.principalAmount + emi.interestAmount)`, and
set `loan.status = 'completed'` when no unpaid installment remains. -/
def settleEmi (emi : EMI) (ref : String) (now : ℤ) (st : LedgerState) : LedgerState :=
  let emis' := updateFirstByDay emi.dayNumber (markPaid ref now) st.emis
  let loan := { st.loan with
    totalPaid := st.loan.totalPaid + emi.totalAmount
    remainingBalance :=
      st.loan.remainingBalance - ((emi.principalAmount + emi.interestAmount : ℤ) : ℚ) }
  let loan := if emis'.countP notPaid = 0 then { loan with status := .completed } else loan
  { loan := loan, emis := emis' }

/-- `POST /api/payment/simulate` (payment.js:31-106): rejects an installment
that is already paid, otherwise settles it with a synthetic reference. -/
def simulatePay (day : ℕ) (now : ℤ) (st : LedgerState) : Except String LedgerState :=
  match st.emis.find? (fun e => e.dayNumber == day) with
  | Option.none => .error "EMI not found"
  | some emi =>
      if emi.status = .paid then .error "EMI is already paid"
      else .ok (settleEmi emi ("sim_" ++ toString now) now st)

/-- `POST /api/payment/verify` (payment.js:195-288): recomputes the
HMAC-SHA256 of `razorpay_order_id + '|' + razorpay_payment_id` with the key
secret and rejects on mismatch; on success it settles the installment.
The source has NO already-paid guard on this path (payment.js:230-246). -/
def verifyPayment (hmac : String → String → String) (secret orderId paymentId signature : String)
    (day : ℕ) (now : ℤ) (st : LedgerState) : Except String LedgerState :=
  if hmac secret (orderId ++ "|" ++ paymentId) ≠ signature then
    .error "Payment verification failed"
  else
    match st.emis.find? (fun e => e.dayNumber == day) with
    | Option.none => .error "EMI not found"
    | some emi => .ok (settleEmi emi paymentId now st)

/-- `PUT /api/admin/emis/:id/mark-paid` (admin.js:345-381): rejects an
already-paid installment, otherwise settles it with an admin reference. -/
def adminMarkPaid (day : ℕ) (now : ℤ) (adminRef : String) (st : LedgerState) :
    Except String LedgerState :=
  match st.emis.find? (fun e => e.dayNumber == day) with
  | Option.none => .error "EMI not found"
  | some emi =>
      if emi.status = .paid then .error "EMI already paid"
      else .ok (settleEmi emi adminRef now st)

/-- Insertion step of sorting by `dayNumber` (stable, ascending), modelling
Mongo's `.sort({ dayNumber: 1 })`. -/
def insertByDay (e : EMI) : List EMI → List EMI
  | [] => [e]
  | x :: xs => if e.dayNumber ≤ x.dayNumber then e :: x :: xs else x :: insertByDay e xs

/-- `.sort({ dayNumber: 1 })` on a result set. -/
def sortByDay (l : List EMI) : List EMI := l.foldr insertByDay []

/-- `EMI.find({ loanId, status: { $ne: 'paid' } }).sort({ dayNumber: 1 }).limit(7)`
— the batch of up to 7 oldest unpaid installments selected by the
subscription-charge paths (part_005:96-99, payment.js:507-510). -/
def selectBatch (st : LedgerState) : List EMI :=
  (sortByDay (st.emis.filter notPaid)).take 7

/-- Mark every installment of the selected batch paid (batch members are
identified by their unique `dayNumber`); other installments are untouched. -/
def payBatch (sel : List EMI) (ref : String) (now : ℤ) (emis : List EMI) : List EMI :=
  emis.map fun e =>
    if notPaid e && (sel.map (·.dayNumber)).contains e.dayNumber then markPaid ref now e
    else e

/-- Signature-verified body of `POST /api/payment/verify-autopay`
(payment.js:495-520): activate autopay on the loan, then mark the first
batch of up to 7 unpaid installments paid and apply the aggregate deltas.
The source performs NO completion check on this path. -/
def autopayApply (paymentId : String) (now : ℤ) (st : LedgerState) : LedgerState :=
  let loan0 := { st.loan with autopayEnabled := true, autopayStatus := .active }
  let sel := selectBatch st
  let emis' := payBatch sel paymentId now st.emis
  let loan1 := { loan0 with
    totalPaid := loan0.totalPaid + (sel.map (·.totalAmount)).sum
    remainingBalance := loan0.remainingBalance
      - (((sel.map (fun e => e.principalAmount + e.interestAmount)).sum : ℤ) : ℚ) }
  { loan := loan1, emis := emis' }

/-- `POST /api/payment/verify-autopay` (payment.js:468-545): checks the
HMAC-SHA256 of `razorpay_payment_id + '|' + razorpay_subscription_id`
against the supplied signature before any mutation, rejecting on
mismatch. -/
def verifyAutopay (hmac : String → String → String)
    (secret subscriptionId paymentId signature : String) (now : ℤ) (st : LedgerState) :
    Except String LedgerState :=
  if hmac secret (paymentId ++ "|" ++ subscriptionId) ≠ signature then
    .error "Autopay verification failed"
  else .ok (autopayApply paymentId now st)

/-- `handleSubscriptionCharged` (src/unnamed/part_005:74-155): settle up to
7 oldest unpaid installments, apply the aggregate deltas, and set the loan
`completed` when no unpaid installment remains.  With no unpaid installment
it returns without touching the state (part_005:101-104). -/
def webhookApply (paymentId : String) (now : ℤ) (st : LedgerState) : LedgerState :=
  let sel := selectBatch st
  if sel.isEmpty then st
  else
    let emis' := payBatch sel paymentId now st.emis
    let loan := { st.loan with
      totalPaid := st.loan.totalPaid + (sel.map (·.totalAmount)).sum
      remainingBalance := st.loan.remainingBalance
        - (((sel.map (fun e => e.principalAmount + e.interestAmount)).sum : ℤ) : ℚ) }
    let loan := if emis'.countP notPaid = 0 then { loan with status := .completed } else loan
    { loan := loan, emis := emis' }

/-- `POST /api/webhooks/razorpay` with event `subscription.charged`
(src/unnamed/part_005): the route recomputes the HMAC-SHA256 of the raw
body with the webhook secret and rejects on mismatch before any processing
(part_005:31-40); on success `handleSubscriptionCharged` runs. -/
def webhookCharged (hmac : String → String → String)
    (secret rawBody signature paymentId : String) (now : ℤ) (st : LedgerState) :
    Except String LedgerState :=
  if hmac secret rawBody ≠ signature then .error "Invalid signature"
  else .ok (webhookApply paymentId now st)

/-! ## Overdue sweep (src/src/socket.js:355-403 `processOverdueEMIs`) -/

/-- Loop body of `processOverdueEMIs` for one installment: for an unpaid
installment past due (`status ∈ {pending, overdue}`, `dueDate < today`),
compute `daysOverdue = today - dueDate` (both dates at midnight, so the JS
`Math.round` of the millisecond quotient is exact), skip when
`daysOverdue ≤ 0`, set `newPenalty = interestAmount * daysOverdue`, and only
when `newPenalty > penaltyAmount` save the updated installment and report
the loan-level delta and a count of 1.  Returns
`(saved installment, loan penalty delta, processed count)`. -/
def sweepEmi (today : ℤ) (e : EMI) : EMI × ℤ × ℕ :=
  if (e.status = .pending ∨ e.status = .overdue) ∧ e.dueDate < today then
    let daysOverdue : ℤ := today - e.dueDate
    if daysOverdue ≤ 0 then (e, 0, 0)
    else
      let newPenalty := e.interestAmount * daysOverdue
      if e.penaltyAmount < newPenalty then
        ({ e with penaltyAmount := newPenalty
                  totalAmount := e.principalAmount + e.interestAmount + newPenalty
                  status := .overdue },
          newPenalty - e.penaltyAmount, 1)
      else (e, 0, 0)
  else (e, 0, 0)

/-- `processOverdueEMIs` (socket.js:355-403): sweep every installment with
`sweepEmi`, add each applied delta to the loan's `penaltyAmount`
(`Loan.findByIdAndUpdate($inc)`), and return the number of installments
whose penalty actually increased. -/
def processOverdueEMIs (today : ℤ) (st : LedgerState) : LedgerState × ℕ :=
  ({ loan := { st.loan with
        penaltyAmount :=
          st.loan.penaltyAmount + (st.emis.map (fun e => (sweepEmi today e).2.1)).sum }
     emis := st.emis.map (fun e => (sweepEmi today e).1) },
   (st.emis.map (fun e => (sweepEmi today e).2.2)).sum)

/-- Route semantics of a fallible operation: an error response leaves the
persisted state unchanged. -/
def applyResult (st : LedgerState) : Except String LedgerState → LedgerState
  | .ok st' => st'
  | .error _ => st

/-- A concrete stand-in for HMAC-SHA256 used by closed witness and
counterexample theorems; the routes observe the hash only through string
equality. -/
def hmacConcat (secret body : String) : String := secret ++ ":" ++ body

/-- C3: schedule generation for an approved loan with `amount = A`,
`totalDays = N ≥ 1` produces exactly `N` installments with `dayNumber`
exactly `{1..N}` each once, per-installment
`principalAmount = ceil(A/N)`,
`interestAmount = ceil((A * interestRate/100)/N)` (the rate being fixed at
20 by the approval route), zero penalty,
`totalAmount = principal + interest`, `dueDate = startDate + (dayNumber-1)`
with `startDate = today + 1` at midnight; the loan's `startDate`,
`endDate = startDate + N - 1` and `approvedAt` are set; and the schedule
over-allocates: `A ≤ Σ principal ≤ A + (N-1)` and
`ceil(A*20/100) ≤ Σ interest ≤ ceil(A*20/100) + (N-1)`. -/
theorem approveLoan_schedule_correct (A : ℤ) (N : ℕ) (today : ℤ) (hN : 1 ≤ N) :
    (approveLoan A N today).emis.length = N ∧
    (approveLoan A N today).emis.map (·.dayNumber) = List.range' 1 N ∧
    (∀ e ∈ (approveLoan A N today).emis,
      e.principalAmount = ⌈(A : ℚ) / (N : ℚ)⌉ ∧
      e.interestAmount
        = ⌈((A : ℚ) * (((approveLoan A N today).loan.interestRate : ℚ) / 100)) / (N : ℚ)⌉ ∧
      e.penaltyAmount = 0 ∧
      e.totalAmount = e.principalAmount + e.interestAmount ∧
      e.dueDate = today + 1 + (e.dayNumber : ℤ) - 1 ∧
      e.status = .pending) ∧
    (approveLoan A N today).loan.interestRate = 20 ∧
    (approveLoan A N today).loan.startDate = some (today + 1) ∧
    (approveLoan A N today).loan.endDate = some (today + 1 + (N : ℤ) - 1) ∧
    (approveLoan A N today).loan.approvedAt ≠ Option.none ∧
    A ≤ ((approveLoan A N today).emis.map (·.principalAmount)).sum ∧
    ((approveLoan A N today).emis.map (·.principalAmount)).sum ≤ A + ((N : ℤ) - 1) ∧
    ⌈(A : ℚ) * (20 / 100)⌉ ≤ ((approveLoan A N today).emis.map (·.interestAmount)).sum ∧
    ((approveLoan A N today).emis.map (·.interestAmount)).sum
      ≤ ⌈(A : ℚ) * (20 / 100)⌉ + ((N : ℤ) - 1) := by
  have hN0 : 0 < N := hN
  have hPmap : (approveLoan A N today).emis.map (·.principalAmount)
      = List.replicate N (dailyPrincipal A N) := by
    simp [approveLoan, generateEMIs, List.map_map, Function.comp_def]
  have hImap : (approveLoan A N today).emis.map (·.interestAmount)
      = List.replicate N (dailyInterest A N) := by
    simp [approveLoan, generateEMIs, List.map_map, Function.comp_def]
  have hPsum : ((approveLoan A N today).emis.map (·.principalAmount)).sum
      = (N : ℤ) * dailyPrincipal A N := by
    rw [hPmap, List.sum_replicate, nsmul_eq_mul]
  have hIsum : ((approveLoan A N today).emis.map (·.interestAmount)).sum
      = (N : ℤ) * dailyInterest A N := by
    rw [hImap, List.sum_replicate, nsmul_eq_mul]
  refine ⟨?_, ?_, ?_, rfl, rfl, rfl, by simp [approveLoan], ?_, ?_, ?_, ?_⟩
  · simp [approveLoan, generateEMIs]
  · simp [approveLoan, generateEMIs, List.map_map, Function.comp_def]
  · intro e he
    simp only [approveLoan, generateEMIs, List.mem_map] at he
    obtain ⟨day, hday, rfl⟩ := he
    refine ⟨rfl, ?_, rfl, rfl, by simp, rfl⟩
    simp [dailyInterest, totalInterest, approveLoan]
  · rw [hPsum]
    have h := le_mul_ceil_div (A : ℚ) hN0
    rwa [Int.ceil_intCast] at h
  · rw [hPsum]
    have h := mul_ceil_div_le (A : ℚ) hN0
    rwa [Int.ceil_intCast] at h
  · rw [hIsum]
    exact le_mul_ceil_div _ hN0
  · rw [hIsum]
    exact mul_ceil_div_le _ hN0

/-- Witness for C3 at the specification's scenario `A = 10000`, `N = 100`:
the hypothesis `1 ≤ 100` holds, and the theorem applies. -/
theorem approveLoan_schedule_correct_witness :
    1 ≤ 100 ∧
    ((approveLoan 10000 100 0).emis.length = 100 ∧
    (approveLoan 10000 100 0).emis.map (·.dayNumber) = List.range' 1 100 ∧
    (∀ e ∈ (approveLoan 10000 100 0).emis,
      e.principalAmount = ⌈((10000 : ℤ) : ℚ) / ((100 : ℕ) : ℚ)⌉ ∧
      e.interestAmount
        = ⌈(((10000 : ℤ) : ℚ) * (((approveLoan 10000 100 0).loan.interestRate : ℚ) / 100))
            / ((100 : ℕ) : ℚ)⌉ ∧
      e.penaltyAmount = 0 ∧
      e.totalAmount = e.principalAmount + e.interestAmount ∧
      e.dueDate = (0 : ℤ) + 1 + (e.dayNumber : ℤ) - 1 ∧
      e.status = .pending) ∧
    (approveLoan 10000 100 0).loan.interestRate = 20 ∧
    (approveLoan 10000 100 0).loan.startDate = some ((0 : ℤ) + 1) ∧
    (approveLoan 10000 100 0).loan.endDate = some ((0 : ℤ) + 1 + ((100 : ℕ) : ℤ) - 1) ∧
    (approveLoan 10000 100 0).loan.approvedAt ≠ Option.none ∧
    (10000 : ℤ) ≤ ((approveLoan 10000 100 0).emis.map (·.principalAmount)).sum ∧
    ((approveLoan 10000 100 0).emis.map (·.principalAmount)).sum
      ≤ 10000 + (((100 : ℕ) : ℤ) - 1) ∧
    ⌈((10000 : ℤ) : ℚ) * (20 / 100)⌉
      ≤ ((approveLoan 10000 100 0).emis.map (·.interestAmount)).sum ∧
    ((approveLoan 10000 100 0).emis.map (·.interestAmount)).sum
      ≤ ⌈((10000 : ℤ) : ℚ) * (20 / 100)⌉ + (((100 : ℕ) : ℤ) - 1)) :=
  ⟨by norm_num, approveLoan_schedule_correct 10000 100 0 (by norm_num)⟩

/-! ## Concrete evaluation helpers -/

/-- Closed form of the approval of a 1000-rupee, 1-day loan on day 0:
`dailyPrincipal = 1000`, `dailyInterest = 200`, one pending installment of
1200 due on day 1. -/
theorem approveLoan_1000_1_eval :
    approveLoan 1000 1 0 =
      { loan :=
          { amount := 1000, totalDays := 1, interestRate := 20, totalPaid := 0
            remainingBalance := 1200, penaltyAmount := 0, status := .approved
            startDate := some 1, endDate := some 1, approvedAt := some 0
            autopayEnabled := false, autopayStatus := .none }
        emis := [{ dayNumber := 1, principalAmount := 1000, interestAmount := 200
                   penaltyAmount := 0, totalAmount := 1200, dueDate := 1
                   status := .pending }] } := by
  have hp : dailyPrincipal 1000 1 = 1000 := by
    rw [dailyPrincipal_eval]; decide
  have hi : dailyInterest 1000 1 = 200 := by
    rw [dailyInterest_eval 1000 1 (by norm_num)]; decide
  simp [approveLoan, generateEMIs, hp, hi, List.range']
  norm_num

/-- The ledger after the single installment of the 1000×1-day loan has been
settled once through `/simulate` (so its status is `paid`, with
`paidAt = 0`), followed by a re-delivered, correctly signed `/verify`
request for the same installment at time 2. -/
def verifyRetryStart : LedgerState :=
  applyResult (approveLoan 1000 1 0) (simulatePay 1 0 (approveLoan 1000 1 0))

/-- Result of replaying a correctly signed `/verify` request against
`verifyRetryStart`, whose only installment is already `paid`. -/
def verifyRetryEnd : LedgerState :=
  applyResult verifyRetryStart
    (verifyPayment hmacConcat "secret" "order1" "pay1"
      (hmacConcat "secret" ("order1" ++ "|" ++ "pay1")) 1 2 verifyRetryStart)

/-- C1 (code bug, failing entry point): a correctly signed
`POST /api/payment/verify` for an installment that is already `paid` is NOT
rejected: it overwrites the settlement metadata (`paidAt` moves from 0 to 2,
the payment reference is replaced) and increments `loan.totalPaid` a second
time (1200 → 2400), double-crediting the loan, contrary to the claimed
no-mutation guard on every settlement entry point. -/
theorem verify_resettles_paid_installment :
    (verifyRetryStart.emis.all fun e => e.status == .paid) = true ∧
    verifyRetryStart.loan.totalPaid = 1200 ∧
    verifyRetryStart.emis.map (·.paidAt) = [some 0] ∧
    verifyRetryEnd.loan.totalPaid = 2400 ∧
    verifyRetryEnd.emis.map (·.paidAt) = [some 2] ∧
    verifyRetryEnd.emis.map (·.razorpayPaymentId) = [some "pay1"] ∧
    verifyRetryEnd.loan.remainingBalance = verifyRetryStart.loan.remainingBalance - 1200 := by
  unfold verifyRetryEnd verifyRetryStart
  rw [approveLoan_1000_1_eval]
  refine ⟨by decide, by decide, by decide, by decide, by decide, by decide, ?_⟩
  show (1200 : ℚ) - ((1000 + 200 : ℤ) : ℚ) - ((1000 + 200 : ℤ) : ℚ)
      = (1200 : ℚ) - ((1000 + 200 : ℤ) : ℚ) - 1200
  norm_num

/-- Ledger after a correctly signed `POST /api/payment/verify-autopay` on
the freshly approved 1000×1-day loan: its only installment is settled by
the first autopay batch. -/
def autopayActivationEnd : LedgerState :=
  applyResult (approveLoan 1000 1 0)
    (verifyAutopay hmacConcat "secret" "sub1" "pay1"
      (hmacConcat "secret" ("pay1" ++ "|" ++ "sub1")) 5 (approveLoan 1000 1 0))

/-- C6 (code bug, failing entry point): after autopay activation settles
every installment of the loan, the loan is still `approved`, not
`completed` — `/verify-autopay` performs no completion check, so a loan
whose installments are all `paid` keeps `status ≠ completed`. -/
theorem verify_autopay_skips_completion_check :
    (autopayActivationEnd.emis.all fun e => e.status == .paid) = true ∧
    autopayActivationEnd.loan.totalPaid = 1200 ∧
    autopayActivationEnd.loan.status = .approved ∧
    ¬ autopayActivationEnd.loan.status = .completed := by
  unfold autopayActivationEnd
  rw [approveLoan_1000_1_eval]
  exact ⟨by decide, by decide, by decide, by decide⟩

/-! ## Overdue sweep: per-installment behaviour and idempotence -/

/-- Apply branch of the sweep loop body: for an unpaid installment past due
whose recomputed penalty exceeds the stored one, the saved document has
`penaltyAmount = interestAmount * daysOverdue`, recomputed `totalAmount`,
status `overdue`, and the loop reports the delta and a count of 1. -/
theorem sweepEmi_applied (d : ℤ) (e : EMI)
    (h1 : e.status = EmiStatus.pending ∨ e.status = EmiStatus.overdue)
    (h2 : e.dueDate < d)
    (h3 : e.penaltyAmount < e.interestAmount * (d - e.dueDate)) :
    sweepEmi d e =
      ({ e with penaltyAmount := e.interestAmount * (d - e.dueDate)
                totalAmount := e.principalAmount + e.interestAmount
                  + e.interestAmount * (d - e.dueDate)
                status := EmiStatus.overdue },
        e.interestAmount * (d - e.dueDate) - e.penaltyAmount, 1) := by
  unfold sweepEmi
  rw [if_pos ⟨h1, h2⟩, if_neg (by omega), if_pos h3]

/-- Skip branch of the sweep loop body: an installment that is paid, not yet
due, or whose recomputed penalty does not exceed the stored one, is left
untouched and contributes no delta and no count. -/
theorem sweepEmi_not_applied (d : ℤ) (e : EMI)
    (h : ¬ ((e.status = EmiStatus.pending ∨ e.status = EmiStatus.overdue) ∧ e.dueDate < d)
      ∨ e.interestAmount * (d - e.dueDate) ≤ e.penaltyAmount) :
    sweepEmi d e = (e, 0, 0) := by
  unfold sweepEmi
  rcases h with h | h
  · rw [if_neg h]
  · by_cases h1 : (e.status = EmiStatus.pending ∨ e.status = EmiStatus.overdue) ∧ e.dueDate < d
    · rw [if_pos h1]
      by_cases h2 : d - e.dueDate ≤ 0
      · rw [if_pos h2]
      · rw [if_neg h2, if_neg (not_lt.mpr h)]
    · rw [if_neg h1]

/-- The sweep loop body is idempotent on each installment. -/
theorem sweepEmi_idem (d : ℤ) (e : EMI) :
    sweepEmi d (sweepEmi d e).1 = ((sweepEmi d e).1, 0, 0) := by
  by_cases h1 : (e.status = EmiStatus.pending ∨ e.status = EmiStatus.overdue) ∧ e.dueDate < d
  · by_cases h3 : e.penaltyAmount < e.interestAmount * (d - e.dueDate)
    · rw [sweepEmi_applied d e h1.1 h1.2 h3]
      exact sweepEmi_not_applied d _ (Or.inr (le_refl _))
    · rw [sweepEmi_not_applied d e (Or.inr (not_lt.mp h3))]
      exact sweepEmi_not_applied d e (Or.inr (not_lt.mp h3))
  · rw [sweepEmi_not_applied d e (Or.inl h1)]
    exact sweepEmi_not_applied d e (Or.inl h1)

/-- C4: one sweep run at day `d`, on a ledger whose installments are
`pre ++ e :: post` with `e` unpaid and past due (`daysOverdue = d - dueDate
≥ 1`): when the accrued penalty `interestAmount * daysOverdue` exceeds the
stored penalty, the saved installment gets exactly
`penaltyAmount = interestAmount * daysOverdue` (one day's interest per day
late), `totalAmount = principal + interest + penalty`, status `overdue`,
and the loan's `penaltyAmount` is incremented on account of `e` by exactly
the delta `newPenalty - currentPenalty`, never by the full new value;
when the accrued penalty does not exceed the stored one, `e` and the loan
penalty contribution are unchanged. -/
theorem overdue_sweep_per_installment (L : Loan) (pre post : List EMI) (e : EMI) (d : ℤ)
    (hstatus : e.status = EmiStatus.pending ∨ e.status = EmiStatus.overdue)
    (hdue : e.dueDate < d) :
    (e.penaltyAmount < e.interestAmount * (d - e.dueDate) →
      (processOverdueEMIs d ⟨L, pre ++ e :: post⟩).1.emis
        = (pre.map fun x => (sweepEmi d x).1)
            ++ ({ e with penaltyAmount := e.interestAmount * (d - e.dueDate)
                         totalAmount := e.principalAmount + e.interestAmount
                           + e.interestAmount * (d - e.dueDate)
                         status := EmiStatus.overdue }
                :: (post.map fun x => (sweepEmi d x).1)) ∧
      (processOverdueEMIs d ⟨L, pre ++ e :: post⟩).1.loan.penaltyAmount
        = L.penaltyAmount + (pre.map fun x => (sweepEmi d x).2.1).sum
            + (e.interestAmount * (d - e.dueDate) - e.penaltyAmount)
            + (post.map fun x => (sweepEmi d x).2.1).sum) ∧
    (e.interestAmount * (d - e.dueDate) ≤ e.penaltyAmount →
      (processOverdueEMIs d ⟨L, pre ++ e :: post⟩).1.emis
        = (pre.map fun x => (sweepEmi d x).1) ++ e :: (post.map fun x => (sweepEmi d x).1) ∧
      (processOverdueEMIs d ⟨L, pre ++ e :: post⟩).1.loan.penaltyAmount
        = L.penaltyAmount + (pre.map fun x => (sweepEmi d x).2.1).sum
            + (post.map fun x => (sweepEmi d x).2.1).sum) := by
  constructor
  · intro h3
    have he := sweepEmi_applied d e hstatus hdue h3
    unfold processOverdueEMIs
    constructor
    · simp [List.map_append, he]
    · simp [List.map_append, List.sum_append, he]
      ring
  · intro h3
    have he := sweepEmi_not_applied d e (Or.inr h3)
    unfold processOverdueEMIs
    constructor
    · simp [List.map_append, he]
    · simp [List.map_append, List.sum_append, he]
      ring

/-- Witness for C4 at the specification's scenario: an installment with
`interestAmount = 20` due 3 days ago accrues `penaltyAmount = 60` and
`totalAmount = 100 + 20 + 60 = 180` in one sweep, and the loan's penalty is
incremented by the delta 60. -/
theorem overdue_sweep_per_installment_witness :
    ((⟨1, 100, 20, 0, 120, 1, .pending, Option.none, Option.none⟩ : EMI).status
        = EmiStatus.pending ∨
      (⟨1, 100, 20, 0, 120, 1, .pending, Option.none, Option.none⟩ : EMI).status
        = EmiStatus.overdue) ∧
    ((⟨1, 100, 20, 0, 120, 1, .pending, Option.none, Option.none⟩ : EMI).dueDate < 4) ∧
    (((⟨1, 100, 20, 0, 120, 1, .pending, Option.none, Option.none⟩ : EMI).penaltyAmount
        < (⟨1, 100, 20, 0, 120, 1, .pending, Option.none, Option.none⟩ : EMI).interestAmount
          * (4 - (⟨1, 100, 20, 0, 120, 1, .pending, Option.none, Option.none⟩ : EMI).dueDate) →
      (processOverdueEMIs 4
          ⟨{ amount := 10000, totalDays := 100 },
            [] ++ (⟨1, 100, 20, 0, 120, 1, .pending, Option.none, Option.none⟩ : EMI) :: []⟩).1.emis
        = ([].map fun x => (sweepEmi 4 x).1)
            ++ ({ (⟨1, 100, 20, 0, 120, 1, .pending, Option.none, Option.none⟩ : EMI) with
                    penaltyAmount :=
                      (⟨1, 100, 20, 0, 120, 1, .pending, Option.none, Option.none⟩ : EMI).interestAmount
                        * (4 - (⟨1, 100, 20, 0, 120, 1, .pending, Option.none, Option.none⟩ : EMI).dueDate)
                    totalAmount :=
                      (⟨1, 100, 20, 0, 120, 1, .pending, Option.none, Option.none⟩ : EMI).principalAmount
                        + (⟨1, 100, 20, 0, 120, 1, .pending, Option.none, Option.none⟩ : EMI).interestAmount
                        + (⟨1, 100, 20, 0, 120, 1, .pending, Option.none, Option.none⟩ : EMI).interestAmount
                          * (4 - (⟨1, 100, 20, 0, 120, 1, .pending, Option.none, Option.none⟩ : EMI).dueDate)
                    status := EmiStatus.overdue }
                :: ([].map fun x => (sweepEmi 4 x).1)) ∧
      (processOverdueEMIs 4
          ⟨{ amount := 10000, totalDays := 100 },
            [] ++ (⟨1, 100, 20, 0, 120, 1, .pending, Option.none, Option.none⟩ : EMI) :: []⟩).1.loan.penaltyAmount
        = ({ amount := 10000, totalDays := 100 } : Loan).penaltyAmount
            + ([].map fun x => (sweepEmi 4 x).2.1).sum
            + ((⟨1, 100, 20, 0, 120, 1, .pending, Option.none, Option.none⟩ : EMI).interestAmount
                * (4 - (⟨1, 100, 20, 0, 120, 1, .pending, Option.none, Option.none⟩ : EMI).dueDate)
              - (⟨1, 100, 20, 0, 120, 1, .pending, Option.none, Option.none⟩ : EMI).penaltyAmount)
            + ([].map fun x => (sweepEmi 4 x).2.1).sum) ∧
    ((⟨1, 100, 20, 0, 120, 1, .pending, Option.none, Option.none⟩ : EMI).interestAmount
        * (4 - (⟨1, 100, 20, 0, 120, 1, .pending, Option.none, Option.none⟩ : EMI).dueDate)
        ≤ (⟨1, 100, 20, 0, 120, 1, .pending, Option.none, Option.none⟩ : EMI).penaltyAmount →
      (processOverdueEMIs 4
          ⟨{ amount := 10000, totalDays := 100 },
            [] ++ (⟨1, 100, 20, 0, 120, 1, .pending, Option.none, Option.none⟩ : EMI) :: []⟩).1.emis
        = ([].map fun x => (sweepEmi 4 x).1)
            ++ (⟨1, 100, 20, 0, 120, 1, .pending, Option.none, Option.none⟩ : EMI)
              :: ([].map fun x => (sweepEmi 4 x).1) ∧
      (processOverdueEMIs 4
          ⟨{ amount := 10000, totalDays := 100 },
            [] ++ (⟨1, 100, 20, 0, 120, 1, .pending, Option.none, Option.none⟩ : EMI) :: []⟩).1.loan.penaltyAmount
        = ({ amount := 10000, totalDays := 100 } : Loan).penaltyAmount
            + ([].map fun x => (sweepEmi 4 x).2.1).sum
            + ([].map fun x => (sweepEmi 4 x).2.1).sum)) :=
  ⟨Or.inl rfl, by decide,
    overdue_sweep_per_installment { amount := 10000, totalDays := 100 } [] []
      ⟨1, 100, 20, 0, 120, 1, .pending, Option.none, Option.none⟩ 4 (Or.inl rfl) (by decide)⟩

/-- C5: the overdue sweep is idempotent with no elapsed time: a second run
at the same day leaves every installment and the loan's penalty unchanged
and reports a count of 0. -/
theorem overdue_sweep_idempotent (d : ℤ) (st : LedgerState) :
    processOverdueEMIs d (processOverdueEMIs d st).1 = ((processOverdueEMIs d st).1, 0) := by
  unfold processOverdueEMIs
  simp only [List.map_map, Function.comp_def]
  refine Prod.ext ?_ ?_
  · refine congrArg₂ LedgerState.mk ?_ ?_
    · have h0 : (st.emis.map fun e => (sweepEmi d (sweepEmi d e).1).2.1).sum = 0 :=
        List.sum_eq_zero (by
          intro x hx
          simp only [List.mem_map] at hx
          obtain ⟨e, _, rfl⟩ := hx
          rw [sweepEmi_idem])
      simp [h0]
    · exact List.map_congr_left (fun e _ => by rw [sweepEmi_idem])
  · exact List.sum_eq_zero (by
      intro x hx
      simp only [List.mem_map] at hx
      obtain ⟨e, _, rfl⟩ := hx
      rw [sweepEmi_idem])



/-! ### Generic list lemmas -/

theorem sum_map_add (l : List EMI) (f g : EMI → ℤ) :
    (l.map fun x => f x + g x).sum = (l.map f).sum + (l.map g).sum := by
  induction l with
  | nil => simp
  | cons x xs ih => simp [ih]; ring

theorem updateFirstByDay_map_eq {β : Type} (g : EMI → β) (day : ℕ) (f : EMI → EMI)
    (hg : ∀ x, g (f x) = g x) (l : List EMI) :
    (updateFirstByDay day f l).map g = l.map g := by
  induction l with
  | nil => rfl
  | cons x xs ih =>
      unfold updateFirstByDay
      by_cases hx : x.dayNumber = day
      · simp [hx, hg]
      · simp [hx, ih]

theorem mem_updateFirstByDay (day : ℕ) (f : EMI → EMI) (l : List EMI) (x : EMI)
    (hx : x ∈ updateFirstByDay day f l) : x ∈ l ∨ ∃ y ∈ l, x = f y := by
  induction l with
  | nil => simp [updateFirstByDay] at hx
  | cons a as ih =>
      unfold updateFirstByDay at hx
      by_cases ha : a.dayNumber = day
      · rw [if_pos ha] at hx
        rcases List.mem_cons.mp hx with h | h
        · exact Or.inr ⟨a, List.mem_cons_self a as, h⟩
        · exact Or.inl (List.mem_cons_of_mem _ h)
      · rw [if_neg ha] at hx
        rcases List.mem_cons.mp hx with h | h
        · exact Or.inl (h ▸ List.mem_cons_self a as)
        · rcases ih h with h' | ⟨y, hy, hxy⟩
          · exact Or.inl (List.mem_cons_of_mem _ h')
          · exact Or.inr ⟨y, List.mem_cons_of_mem _ hy, hxy⟩

theorem filter_paid_sum_updateFirst (g : EMI → ℤ) (day : ℕ) (ref : String) (now : ℤ)
    (l : List EMI) (emi : EMI)
    (hfind : l.find? (fun e => e.dayNumber == day) = some emi)
    (hnp : ¬ emi.status = EmiStatus.paid)
    (hg : ∀ x, g (markPaid ref now x) = g x) :
    (((updateFirstByDay day (markPaid ref now) l).filter
        (fun e => e.status == EmiStatus.paid)).map g).sum
      = ((l.filter (fun e => e.status == EmiStatus.paid)).map g).sum + g emi := by
  induction l with
  | nil => simp at hfind
  | cons x xs ih =>
      by_cases hx : x.dayNumber = day
      · rw [List.find?_cons_of_pos _ (by simpa using hx)] at hfind
        have hxe : x = emi := by injection hfind
        unfold updateFirstByDay
        rw [if_pos hx]
        simp only [List.filter_cons]
        have h1 : ((markPaid ref now x).status == EmiStatus.paid) = true := by
          simp [markPaid]
        have h2 : (x.status == EmiStatus.paid) = false := by
          rw [hxe]; simpa using hnp
        rw [h1, h2]
        simp [hg, hxe]
        ring
      · rw [List.find?_cons_of_neg _ (by simpa using hx)] at hfind
        unfold updateFirstByDay
        rw [if_neg hx]
        simp only [List.filter_cons]
        by_cases hp : (x.status == EmiStatus.paid) = true
        · rw [hp]
          simp [ih hfind]
          ring
        · rw [Bool.not_eq_true] at hp
          rw [hp]
          simpa using ih hfind

/-! ### Case analysis for the sweep body -/

theorem sweepEmi_spec (d : ℤ) (e : EMI) :
    sweepEmi d e = (e, 0, 0) ∨
    ((e.status = EmiStatus.pending ∨ e.status = EmiStatus.overdue) ∧ e.dueDate < d ∧
      e.penaltyAmount < e.interestAmount * (d - e.dueDate) ∧
      sweepEmi d e =
        ({ e with penaltyAmount := e.interestAmount * (d - e.dueDate)
                  totalAmount := e.principalAmount + e.interestAmount
                    + e.interestAmount * (d - e.dueDate)
                  status := EmiStatus.overdue },
          e.interestAmount * (d - e.dueDate) - e.penaltyAmount, 1)) := by
  by_cases h1 : (e.status = EmiStatus.pending ∨ e.status = EmiStatus.overdue) ∧ e.dueDate < d
  · by_cases h3 : e.penaltyAmount < e.interestAmount * (d - e.dueDate)
    · exact Or.inr ⟨h1.1, h1.2, h3, sweepEmi_applied d e h1.1 h1.2 h3⟩
    · exact Or.inl (sweepEmi_not_applied d e (Or.inr (not_lt.mp h3)))
  · exact Or.inl (sweepEmi_not_applied d e (Or.inl h1))

theorem sweepEmi_principal (d : ℤ) (e : EMI) :
    (sweepEmi d e).1.principalAmount = e.principalAmount := by
  rcases sweepEmi_spec d e with h | ⟨-, -, -, h⟩ <;> rw [h]

theorem sweepEmi_interest (d : ℤ) (e : EMI) :
    (sweepEmi d e).1.interestAmount = e.interestAmount := by
  rcases sweepEmi_spec d e with h | ⟨-, -, -, h⟩ <;> rw [h]

theorem sweepEmi_day (d : ℤ) (e : EMI) :
    (sweepEmi d e).1.dayNumber = e.dayNumber := by
  rcases sweepEmi_spec d e with h | ⟨-, -, -, h⟩ <;> rw [h]

theorem sweepEmi_pen_delta (d : ℤ) (e : EMI) :
    (sweepEmi d e).1.penaltyAmount = e.penaltyAmount + (sweepEmi d e).2.1 := by
  rcases sweepEmi_spec d e with h | ⟨-, -, -, h⟩
  · rw [h]; simp
  · rw [h]; simp

theorem sweepEmi_wellformed (d : ℤ) (e : EMI)
    (h : e.totalAmount = e.principalAmount + e.interestAmount + e.penaltyAmount) :
    (sweepEmi d e).1.totalAmount
      = (sweepEmi d e).1.principalAmount + (sweepEmi d e).1.interestAmount
        + (sweepEmi d e).1.penaltyAmount := by
  rcases sweepEmi_spec d e with h' | ⟨-, -, -, h'⟩
  · rw [h']; exact h
  · rw [h']

theorem sweepEmi_of_paid (d : ℤ) (e : EMI) (h : e.status = EmiStatus.paid) :
    sweepEmi d e = (e, 0, 0) := by
  apply sweepEmi_not_applied
  left
  rintro ⟨h1 | h1, -⟩ <;> rw [h] at h1 <;> cases h1

theorem sweepEmi_status_paid_iff (d : ℤ) (e : EMI) :
    ((sweepEmi d e).1.status = EmiStatus.paid) ↔ (e.status = EmiStatus.paid) := by
  rcases sweepEmi_spec d e with h | ⟨hs, -, -, h⟩
  · rw [h]
  · rw [h]
    constructor
    · intro h'; cases h'
    · intro h'; rcases hs with h'' | h'' <;> rw [h'] at h'' <;> cases h''

/-! ### Reachable ledger states -/

/-- States reachable through the code: a loan approved through the admin
route (which validates `1000 ≤ amount ≤ 100000` and `1 ≤ totalDays ≤ 365`),
followed by any sequence of settlement-route invocations and overdue
sweeps.  A route that responds with an error leaves the state unchanged. -/
inductive Reachable : LedgerState → Prop where
  | approve (amount : ℤ) (totalDays : ℕ) (today : ℤ)
      (hlo : 1000 ≤ amount) (hhi : amount ≤ 100000)
      (hdlo : 1 ≤ totalDays) (hdhi : totalDays ≤ 365) :
      Reachable (approveLoan amount totalDays today)
  | simulate {st : LedgerState} (day : ℕ) (now : ℤ) (h : Reachable st) :
      Reachable (applyResult st (simulatePay day now st))
  | verify {st : LedgerState} (hmac : String → String → String)
      (secret orderId paymentId signature : String) (day : ℕ) (now : ℤ)
      (h : Reachable st) :
      Reachable (applyResult st
        (verifyPayment hmac secret orderId paymentId signature day now st))
  | adminPaid {st : LedgerState} (day : ℕ) (now : ℤ) (adminRef : String)
      (h : Reachable st) :
      Reachable (applyResult st (adminMarkPaid day now adminRef st))
  | autopay {st : LedgerState} (hmac : String → String → String)
      (secret subscriptionId paymentId signature : String) (now : ℤ)
      (h : Reachable st) :
      Reachable (applyResult st
        (verifyAutopay hmac secret subscriptionId paymentId signature now st))
  | webhook {st : LedgerState} (hmac : String → String → String)
      (secret rawBody signature paymentId : String) (now : ℤ) (h : Reachable st) :
      Reachable (applyResult st
        (webhookCharged hmac secret rawBody signature paymentId now st))
  | sweep {st : LedgerState} (today : ℤ) (h : Reachable st) :
      Reachable (processOverdueEMIs today st).1

/-! ### Conservation invariant -/

/-- Per-installment accounting identity
`totalAmount = principalAmount + interestAmount + penaltyAmount`. -/
def EmiWellFormed (e : EMI) : Prop :=
  e.totalAmount = e.principalAmount + e.interestAmount + e.penaltyAmount

/-- The conservation bookkeeping: every installment satisfies the accounting
identity, the loan's penalty equals the summed installment penalties, the
fixed principal+interest mass of the schedule equals
`totalDays * (dailyPrincipal + dailyInterest)`, and `totalDays ≥ 1`. -/
def ConservationInv (st : LedgerState) : Prop :=
  (∀ e ∈ st.emis, EmiWellFormed e) ∧
  (st.emis.map (·.penaltyAmount)).sum = st.loan.penaltyAmount ∧
  (st.emis.map fun e => e.principalAmount + e.interestAmount).sum
    = (st.loan.totalDays : ℤ)
      * (dailyPrincipal st.loan.amount st.loan.totalDays
        + dailyInterest st.loan.amount st.loan.totalDays) ∧
  1 ≤ st.loan.totalDays

theorem settleEmi_loan_spec (emi : EMI) (ref : String) (now : ℤ) (st : LedgerState) :
    (settleEmi emi ref now st).loan.penaltyAmount = st.loan.penaltyAmount ∧
    (settleEmi emi ref now st).loan.amount = st.loan.amount ∧
    (settleEmi emi ref now st).loan.totalDays = st.loan.totalDays ∧
    (settleEmi emi ref now st).loan.totalPaid = st.loan.totalPaid + emi.totalAmount ∧
    (settleEmi emi ref now st).loan.remainingBalance
      = st.loan.remainingBalance - ((emi.principalAmount + emi.interestAmount : ℤ) : ℚ) ∧
    (settleEmi emi ref now st).emis
      = updateFirstByDay emi.dayNumber (markPaid ref now) st.emis := by
  unfold settleEmi
  dsimp only
  split <;> exact ⟨rfl, rfl, rfl, rfl, rfl, rfl⟩

theorem conservation_settleEmi (emi : EMI) (ref : String) (now : ℤ) (st : LedgerState)
    (h : ConservationInv st) : ConservationInv (settleEmi emi ref now st) := by
  obtain ⟨h1, h2, h3, h4⟩ := h
  obtain ⟨hpen, hamt, hdays, -, -, hemis⟩ := settleEmi_loan_spec emi ref now st
  refine ⟨?_, ?_, ?_, ?_⟩
  · intro x hx
    rw [hemis] at hx
    rcases mem_updateFirstByDay _ _ _ _ hx with h' | ⟨y, hy, rfl⟩
    · exact h1 x h'
    · exact h1 y hy
  · rw [hemis,
      updateFirstByDay_map_eq (fun x => x.penaltyAmount) emi.dayNumber
        (markPaid ref now) (fun x => rfl) st.emis, h2, hpen]
  · rw [hemis,
      updateFirstByDay_map_eq (fun e => e.principalAmount + e.interestAmount) emi.dayNumber
        (markPaid ref now) (fun x => rfl) st.emis, h3, hamt, hdays]
  · rw [hdays]; exact h4

theorem payBatch_map_eq {β : Type} (g : EMI → β) (sel : List EMI) (ref : String) (now : ℤ)
    (hg : ∀ x, g (markPaid ref now x) = g x) (l : List EMI) :
    (payBatch sel ref now l).map g = l.map g := by
  unfold payBatch
  rw [List.map_map]
  apply List.map_congr_left
  intro x _
  simp only [Function.comp_def]
  by_cases hc : (notPaid x && (sel.map (·.dayNumber)).contains x.dayNumber) = true
  · rw [if_pos hc, hg]
  · rw [if_neg hc]

theorem mem_payBatch (sel : List EMI) (ref : String) (now : ℤ) (l : List EMI) (x : EMI)
    (hx : x ∈ payBatch sel ref now l) : x ∈ l ∨ ∃ y ∈ l, x = markPaid ref now y := by
  unfold payBatch at hx
  obtain ⟨y, hy, rfl⟩ := List.mem_map.mp hx
  by_cases hc : (notPaid y && (sel.map (·.dayNumber)).contains y.dayNumber) = true
  · rw [if_pos hc]
    exact Or.inr ⟨y, hy, rfl⟩
  · rw [if_neg hc]
    exact Or.inl hy

theorem conservation_autopayApply (paymentId : String) (now : ℤ) (st : LedgerState)
    (h : ConservationInv st) : ConservationInv (autopayApply paymentId now st) := by
  obtain ⟨h1, h2, h3, h4⟩ := h
  refine ⟨?_, ?_, ?_, h4⟩
  · intro x hx
    rcases mem_payBatch _ _ _ _ _ hx with h' | ⟨y, hy, rfl⟩
    · exact h1 x h'
    · exact h1 y hy
  · show ((payBatch (selectBatch st) paymentId now st.emis).map
        (fun x => x.penaltyAmount)).sum = _
    rw [payBatch_map_eq (fun x => x.penaltyAmount) (selectBatch st) paymentId now
      (fun x => rfl) st.emis, h2]
    rfl
  · show ((payBatch (selectBatch st) paymentId now st.emis).map
        fun e => e.principalAmount + e.interestAmount).sum = _
    rw [payBatch_map_eq (fun e => e.principalAmount + e.interestAmount) (selectBatch st)
      paymentId now (fun x => rfl) st.emis, h3]
    rfl

theorem webhookApply_cases (paymentId : String) (now : ℤ) (st : LedgerState) :
    webhookApply paymentId now st = st ∨
    ((webhookApply paymentId now st).emis = payBatch (selectBatch st) paymentId now st.emis ∧
     (webhookApply paymentId now st).loan.penaltyAmount = st.loan.penaltyAmount ∧
     (webhookApply paymentId now st).loan.amount = st.loan.amount ∧
     (webhookApply paymentId now st).loan.totalDays = st.loan.totalDays ∧
     (webhookApply paymentId now st).loan.totalPaid
       = st.loan.totalPaid + ((selectBatch st).map (·.totalAmount)).sum ∧
     (webhookApply paymentId now st).loan.remainingBalance
       = st.loan.remainingBalance
         - ((((selectBatch st).map fun e => e.principalAmount + e.interestAmount).sum : ℤ) : ℚ)) := by
  unfold webhookApply
  dsimp only
  by_cases hempty : (selectBatch st).isEmpty = true
  · rw [if_pos hempty]
    exact Or.inl rfl
  · rw [if_neg hempty]
    right
    split <;> exact ⟨rfl, rfl, rfl, rfl, rfl, rfl⟩

theorem conservation_webhookApply (paymentId : String) (now : ℤ) (st : LedgerState)
    (h : ConservationInv st) : ConservationInv (webhookApply paymentId now st) := by
  rcases webhookApply_cases paymentId now st with heq | ⟨hemis, hpen, hamt, hdays, -, -⟩
  · rwa [heq]
  · obtain ⟨h1, h2, h3, h4⟩ := h
    refine ⟨?_, ?_, ?_, ?_⟩
    · intro x hx
      rw [hemis] at hx
      rcases mem_payBatch _ _ _ _ _ hx with h' | ⟨y, hy, rfl⟩
      · exact h1 x h'
      · exact h1 y hy
    · rw [hemis,
        payBatch_map_eq (fun x => x.penaltyAmount) (selectBatch st) paymentId now
          (fun x => rfl) st.emis, h2, hpen]
    · rw [hemis,
        payBatch_map_eq (fun e => e.principalAmount + e.interestAmount) (selectBatch st)
          paymentId now (fun x => rfl) st.emis, h3, hamt, hdays]
    · rw [hdays]; exact h4

theorem conservation_sweep (d : ℤ) (st : LedgerState) (h : ConservationInv st) :
    ConservationInv (processOverdueEMIs d st).1 := by
  obtain ⟨h1, h2, h3, h4⟩ := h
  refine ⟨?_, ?_, ?_, h4⟩
  · intro x hx
    unfold processOverdueEMIs at hx
    obtain ⟨e, he, rfl⟩ := List.mem_map.mp hx
    exact sweepEmi_wellformed d e (h1 e he)
  · show ((st.emis.map fun e => (sweepEmi d e).1).map (·.penaltyAmount)).sum = _
    rw [List.map_map]
    have hcg : (st.emis.map fun e => (sweepEmi d e).1.penaltyAmount).sum
        = (st.emis.map fun e => e.penaltyAmount + (sweepEmi d e).2.1).sum := by
      apply congrArg
      exact List.map_congr_left fun e _ => sweepEmi_pen_delta d e
    simp only [Function.comp_def]
    rw [hcg, sum_map_add]
    show _ = st.loan.penaltyAmount + (st.emis.map fun e => (sweepEmi d e).2.1).sum
    rw [h2]
  · show ((st.emis.map fun e => (sweepEmi d e).1).map
        fun e => e.principalAmount + e.interestAmount).sum = _
    rw [List.map_map]
    simp only [Function.comp_def]
    have hcg : (st.emis.map fun e => (sweepEmi d e).1.principalAmount
          + (sweepEmi d e).1.interestAmount).sum
        = (st.emis.map fun e => e.principalAmount + e.interestAmount).sum := by
      apply congrArg
      exact List.map_congr_left fun e _ => by
        rw [sweepEmi_principal, sweepEmi_interest]
    rw [hcg, h3]
    rfl

theorem conservation_approveLoan (amount : ℤ) (totalDays : ℕ) (today : ℤ)
    (hN : 1 ≤ totalDays) : ConservationInv (approveLoan amount totalDays today) := by
  refine ⟨?_, ?_, ?_, hN⟩
  · intro e he
    simp only [approveLoan, generateEMIs, List.mem_map] at he
    obtain ⟨day, -, rfl⟩ := he
    show dailyPrincipal amount totalDays + dailyInterest amount totalDays
      = dailyPrincipal amount totalDays + dailyInterest amount totalDays + 0
    ring
  · show ((generateEMIs amount totalDays today).map (·.penaltyAmount)).sum = 0
    unfold generateEMIs
    rw [List.map_map]
    simp [Function.comp_def]
  · show ((generateEMIs amount totalDays today).map
        fun e => e.principalAmount + e.interestAmount).sum = _
    unfold generateEMIs
    rw [List.map_map]
    simp only [Function.comp_def]
    rw [show ((List.range' 1 totalDays).map fun _ =>
          dailyPrincipal amount totalDays + dailyInterest amount totalDays)
        = List.replicate totalDays
            (dailyPrincipal amount totalDays + dailyInterest amount totalDays) by
      simp]
    rw [List.sum_replicate, nsmul_eq_mul]
    rfl

theorem applyResult_preserves (P : LedgerState → Prop) (st : LedgerState)
    (r : Except String LedgerState) (hst : P st)
    (hok : ∀ st', r = .ok st' → P st') : P (applyResult st r) := by
  cases r with
  | ok s => exact hok s rfl
  | error e => exact hst

theorem simulatePay_ok (day : ℕ) (now : ℤ) (st st' : LedgerState)
    (h : simulatePay day now st = .ok st') :
    ∃ emi, st.emis.find? (fun e => e.dayNumber == day) = some emi ∧
      ¬ emi.status = EmiStatus.paid ∧
      st' = settleEmi emi ("sim_" ++ toString now) now st := by
  unfold simulatePay at h
  cases hf : st.emis.find? (fun e => e.dayNumber == day) with
  | none => rw [hf] at h; cases h
  | some emi =>
      rw [hf] at h
      dsimp only at h
      by_cases hp : emi.status = EmiStatus.paid
      · rw [if_pos hp] at h; cases h
      · rw [if_neg hp] at h
        injection h with h
        exact ⟨emi, rfl, hp, h.symm⟩

theorem verifyPayment_ok (hmac : String → String → String)
    (secret orderId paymentId signature : String) (day : ℕ) (now : ℤ) (st st' : LedgerState)
    (h : verifyPayment hmac secret orderId paymentId signature day now st = .ok st') :
    ∃ emi, st.emis.find? (fun e => e.dayNumber == day) = some emi ∧
      st' = settleEmi emi paymentId now st := by
  unfold verifyPayment at h
  by_cases hsig : hmac secret (orderId ++ "|" ++ paymentId) ≠ signature
  · rw [if_pos hsig] at h; cases h
  · rw [if_neg hsig] at h
    cases hf : st.emis.find? (fun e => e.dayNumber == day) with
    | none => rw [hf] at h; cases h
    | some emi =>
        rw [hf] at h
        dsimp only at h
        injection h with h
        exact ⟨emi, rfl, h.symm⟩

theorem adminMarkPaid_ok (day : ℕ) (now : ℤ) (adminRef : String) (st st' : LedgerState)
    (h : adminMarkPaid day now adminRef st = .ok st') :
    ∃ emi, st.emis.find? (fun e => e.dayNumber == day) = some emi ∧
      ¬ emi.status = EmiStatus.paid ∧ st' = settleEmi emi adminRef now st := by
  unfold adminMarkPaid at h
  cases hf : st.emis.find? (fun e => e.dayNumber == day) with
  | none => rw [hf] at h; cases h
  | some emi =>
      rw [hf] at h
      dsimp only at h
      by_cases hp : emi.status = EmiStatus.paid
      · rw [if_pos hp] at h; cases h
      · rw [if_neg hp] at h
        injection h with h
        exact ⟨emi, rfl, hp, h.symm⟩

theorem verifyAutopay_ok (hmac : String → String → String)
    (secret subscriptionId paymentId signature : String) (now : ℤ) (st st' : LedgerState)
    (h : verifyAutopay hmac secret subscriptionId paymentId signature now st = .ok st') :
    st' = autopayApply paymentId now st := by
  unfold verifyAutopay at h
  by_cases hsig : hmac secret (paymentId ++ "|" ++ subscriptionId) ≠ signature
  · rw [if_pos hsig] at h; cases h
  · rw [if_neg hsig] at h
    injection h with h
    exact h.symm

theorem webhookCharged_ok (hmac : String → String → String)
    (secret rawBody signature paymentId : String) (now : ℤ) (st st' : LedgerState)
    (h : webhookCharged hmac secret rawBody signature paymentId now st = .ok st') :
    st' = webhookApply paymentId now st := by
  unfold webhookCharged at h
  by_cases hsig : hmac secret rawBody ≠ signature
  · rw [if_pos hsig] at h; cases h
  · rw [if_neg hsig] at h
    injection h with h
    exact h.symm

theorem reachable_conservation {st : LedgerState} (h : Reachable st) :
    ConservationInv st := by
  induction h with
  | approve amount totalDays today hlo hhi hdlo hdhi =>
      exact conservation_approveLoan amount totalDays today hdlo
  | simulate day now h ih =>
      refine applyResult_preserves _ _ _ ih ?_
      intro st' h'
      obtain ⟨emi, -, -, rfl⟩ := simulatePay_ok day now _ st' h'
      exact conservation_settleEmi emi _ now _ ih
  | verify hmac secret orderId paymentId signature day now h ih =>
      refine applyResult_preserves _ _ _ ih ?_
      intro st' h'
      obtain ⟨emi, -, rfl⟩ :=
        verifyPayment_ok hmac secret orderId paymentId signature day now _ st' h'
      exact conservation_settleEmi emi _ now _ ih
  | adminPaid day now adminRef h ih =>
      refine applyResult_preserves _ _ _ ih ?_
      intro st' h'
      obtain ⟨emi, -, -, rfl⟩ := adminMarkPaid_ok day now adminRef _ st' h'
      exact conservation_settleEmi emi _ now _ ih
  | autopay hmac secret subscriptionId paymentId signature now h ih =>
      refine applyResult_preserves _ _ _ ih ?_
      intro st' h'
      rw [verifyAutopay_ok hmac secret subscriptionId paymentId signature now _ st' h']
      exact conservation_autopayApply paymentId now _ ih
  | webhook hmac secret rawBody signature paymentId now h ih =>
      refine applyResult_preserves _ _ _ ih ?_
      intro st' h'
      rw [webhookCharged_ok hmac secret rawBody signature paymentId now _ st' h']
      exact conservation_webhookApply paymentId now _ ih
  | sweep today h ih =>
      exact conservation_sweep today _ ih

/-- Closed form of the approval of a 1000-rupee, 3-day loan on day 0:
`dailyPrincipal = ceil(1000/3) = 334`, `dailyInterest = ceil(200/3) = 67`,
three pending installments of 401 due on days 1..3. -/
theorem approveLoan_1000_3_eval :
    approveLoan 1000 3 0 =
      { loan :=
          { amount := 1000, totalDays := 3, interestRate := 20, totalPaid := 0
            remainingBalance := 1200, penaltyAmount := 0, status := .approved
            startDate := some 1, endDate := some 3, approvedAt := some 0
            autopayEnabled := false, autopayStatus := .none }
        emis := [⟨1, 334, 67, 0, 401, 1, .pending, Option.none, Option.none⟩,
                 ⟨2, 334, 67, 0, 401, 2, .pending, Option.none, Option.none⟩,
                 ⟨3, 334, 67, 0, 401, 3, .pending, Option.none, Option.none⟩] } := by
  have hp : dailyPrincipal 1000 3 = 334 := by
    rw [dailyPrincipal_eval]; decide
  have hi : dailyInterest 1000 3 = 67 := by
    rw [dailyInterest_eval 1000 3 (by norm_num)]; decide
  simp [approveLoan, generateEMIs, hp, hi, List.range']
  norm_num

/-- C2 as stated is false: immediately after schedule generation for the
reachable loan `amount = 1000`, `totalDays = 3` the installment totals sum
to `3 * (334 + 67) = 1203`, not `amount + totalInterest + penaltyAmount
= 1000 + 200 + 0 = 1200` — ceiling rounding over-allocates. -/
theorem conservation_exact_counterexample :
    Reachable (approveLoan 1000 3 0) ∧
    ¬ ((((approveLoan 1000 3 0).emis.map (·.totalAmount)).sum : ℚ)
        = ((approveLoan 1000 3 0).loan.amount : ℚ)
          + totalInterest (approveLoan 1000 3 0).loan.amount
          + ((approveLoan 1000 3 0).loan.penaltyAmount : ℚ)) := by
  constructor
  · exact Reachable.approve 1000 3 0 (by norm_num) (by norm_num) (by norm_num) (by norm_num)
  · rw [approveLoan_1000_3_eval]
    norm_num [totalInterest]

/-- C2 (amended): at every reachable ledger state the installment totals sum
to `totalDays * (dailyPrincipal + dailyInterest) + loan.penaltyAmount`; this
is at least `amount + totalInterest + penaltyAmount` (the claimed value) and
exceeds it by less than `2*totalDays - 1` (the ceiling over-allocation). -/
theorem conservation_totalAmount {st : LedgerState} (h : Reachable st) :
    (st.emis.map (·.totalAmount)).sum
      = (st.loan.totalDays : ℤ)
          * (dailyPrincipal st.loan.amount st.loan.totalDays
            + dailyInterest st.loan.amount st.loan.totalDays)
        + st.loan.penaltyAmount ∧
    (st.loan.amount : ℚ) + totalInterest st.loan.amount + (st.loan.penaltyAmount : ℚ)
      ≤ (((st.emis.map (·.totalAmount)).sum : ℤ) : ℚ) ∧
    (((st.emis.map (·.totalAmount)).sum : ℤ) : ℚ)
      < (st.loan.amount : ℚ) + totalInterest st.loan.amount + (st.loan.penaltyAmount : ℚ)
        + (2 * (st.loan.totalDays : ℚ) - 1) := by
  obtain ⟨h1, h2, h3, h4⟩ := reachable_conservation h
  have hsum : (st.emis.map (·.totalAmount)).sum
      = (st.emis.map fun e => e.principalAmount + e.interestAmount).sum
        + (st.emis.map (·.penaltyAmount)).sum := by
    rw [← sum_map_add]
    apply congrArg
    exact List.map_congr_left fun e he => h1 e he
  have hc1 : (st.emis.map (·.totalAmount)).sum
      = (st.loan.totalDays : ℤ)
          * (dailyPrincipal st.loan.amount st.loan.totalDays
            + dailyInterest st.loan.amount st.loan.totalDays)
        + st.loan.penaltyAmount := by
    rw [hsum, h3, h2]
  have hN0 : 0 < st.loan.totalDays := h4
  have hA0 : st.loan.amount
      ≤ (st.loan.totalDays : ℤ) * dailyPrincipal st.loan.amount st.loan.totalDays := by
    unfold dailyPrincipal
    have h' := le_mul_ceil_div (st.loan.amount : ℚ) hN0
    rwa [Int.ceil_intCast] at h'
  have hA : (st.loan.amount : ℚ)
      ≤ (((st.loan.totalDays : ℤ)
          * dailyPrincipal st.loan.amount st.loan.totalDays : ℤ) : ℚ) := by
    exact_mod_cast hA0
  have hI0 : ⌈totalInterest st.loan.amount⌉
      ≤ (st.loan.totalDays : ℤ) * dailyInterest st.loan.amount st.loan.totalDays := by
    unfold dailyInterest
    exact le_mul_ceil_div (totalInterest st.loan.amount) hN0
  have hI : totalInterest st.loan.amount
      ≤ (((st.loan.totalDays : ℤ)
          * dailyInterest st.loan.amount st.loan.totalDays : ℤ) : ℚ) := by
    calc totalInterest st.loan.amount
        ≤ (⌈totalInterest st.loan.amount⌉ : ℚ) := Int.le_ceil _
    _ ≤ _ := by exact_mod_cast hI0
  have hAup : ((st.loan.totalDays : ℤ)
        * dailyPrincipal st.loan.amount st.loan.totalDays : ℤ)
      ≤ st.loan.amount + ((st.loan.totalDays : ℤ) - 1) := by
    unfold dailyPrincipal
    have h' := mul_ceil_div_le (st.loan.amount : ℚ) hN0
    rwa [Int.ceil_intCast] at h'
  have hIup0 : (st.loan.totalDays : ℤ) * dailyInterest st.loan.amount st.loan.totalDays
      ≤ ⌈totalInterest st.loan.amount⌉ + ((st.loan.totalDays : ℤ) - 1) := by
    unfold dailyInterest
    exact mul_ceil_div_le (totalInterest st.loan.amount) hN0
  have hIup : (((st.loan.totalDays : ℤ)
        * dailyInterest st.loan.amount st.loan.totalDays : ℤ) : ℚ)
      < totalInterest st.loan.amount + (st.loan.totalDays : ℚ) := by
    have h'' : (⌈totalInterest st.loan.amount⌉ : ℚ) < totalInterest st.loan.amount + 1 :=
      Int.ceil_lt_add_one _
    have h3' : (((st.loan.totalDays : ℤ)
          * dailyInterest st.loan.amount st.loan.totalDays : ℤ) : ℚ)
        ≤ (⌈totalInterest st.loan.amount⌉ : ℚ) + ((st.loan.totalDays : ℚ) - 1) := by
      exact_mod_cast hIup0
    linarith
  refine ⟨hc1, ?_, ?_⟩
  · rw [hc1]
    push_cast
    push_cast at hA hI
    linarith
  · rw [hc1]
    have hAup' : (((st.loan.totalDays : ℤ)
          * dailyPrincipal st.loan.amount st.loan.totalDays : ℤ) : ℚ)
        ≤ (st.loan.amount : ℚ) + ((st.loan.totalDays : ℚ) - 1) := by
      exact_mod_cast hAup
    push_cast
    push_cast at hAup' hIup
    linarith

/-- Witness for the amended C2 at the freshly approved 1000×3-day loan. -/
theorem conservation_totalAmount_witness :
    Reachable (approveLoan 1000 3 0) ∧
    (((approveLoan 1000 3 0).emis.map (·.totalAmount)).sum
      = ((approveLoan 1000 3 0).loan.totalDays : ℤ)
          * (dailyPrincipal (approveLoan 1000 3 0).loan.amount
              (approveLoan 1000 3 0).loan.totalDays
            + dailyInterest (approveLoan 1000 3 0).loan.amount
              (approveLoan 1000 3 0).loan.totalDays)
        + (approveLoan 1000 3 0).loan.penaltyAmount ∧
    ((approveLoan 1000 3 0).loan.amount : ℚ)
        + totalInterest (approveLoan 1000 3 0).loan.amount
        + ((approveLoan 1000 3 0).loan.penaltyAmount : ℚ)
      ≤ ((((approveLoan 1000 3 0).emis.map (·.totalAmount)).sum : ℤ) : ℚ) ∧
    ((((approveLoan 1000 3 0).emis.map (·.totalAmount)).sum : ℤ) : ℚ)
      < ((approveLoan 1000 3 0).loan.amount : ℚ)
          + totalInterest (approveLoan 1000 3 0).loan.amount
          + ((approveLoan 1000 3 0).loan.penaltyAmount : ℚ)
          + (2 * ((approveLoan 1000 3 0).loan.totalDays : ℚ) - 1)) :=
  have hr : Reachable (approveLoan 1000 3 0) :=
    Reachable.approve 1000 3 0 (by norm_num) (by norm_num) (by norm_num) (by norm_num)
  ⟨hr, conservation_totalAmount hr⟩



/-! ### Selection of the batch: sortedness and characterisation -/

theorem sortByDay_eq_of_sorted (l : List EMI)
    (h : l.Pairwise (fun a b => a.dayNumber ≤ b.dayNumber)) : sortByDay l = l := by
  induction l with
  | nil => rfl
  | cons x xs ih =>
      rw [show sortByDay (x :: xs) = insertByDay x (sortByDay xs) from rfl,
        ih (List.Pairwise.of_cons h)]
      cases xs with
      | nil => rfl
      | cons y ys =>
          unfold insertByDay
          rw [if_pos (List.rel_of_pairwise_cons h (List.mem_cons_self y ys))]

theorem day_injective_of_pairwise {l : List EMI}
    (hp : l.Pairwise (fun a b => a.dayNumber < b.dayNumber)) :
    ∀ x ∈ l, ∀ y ∈ l, x.dayNumber = y.dayNumber → x = y := by
  induction hp with
  | nil => simp
  | @cons a as ha _ ih =>
      intro x hx y hy hxy
      rcases List.mem_cons.mp hx with rfl | hx'
      · rcases List.mem_cons.mp hy with rfl | hy'
        · rfl
        · exact absurd hxy (by have := ha y hy'; omega)
      · rcases List.mem_cons.mp hy with rfl | hy'
        · exact absurd hxy (by have := ha x hx'; omega)
        · exact ih x hx' y hy' hxy

/-- Under strictly increasing `dayNumber`s, the batch selected by
`.sort({dayNumber: 1}).limit(7)` is the 7-element prefix of the unpaid
installments in ledger order. -/
theorem selectBatch_eq_take (st : LedgerState)
    (hpair : List.Pairwise (· < ·) (st.emis.map (·.dayNumber))) :
    selectBatch st = (st.emis.filter notPaid).take 7 := by
  have hp : st.emis.Pairwise (fun a b => a.dayNumber < b.dayNumber) :=
    List.pairwise_map.mp hpair
  have hu : (st.emis.filter notPaid).Pairwise (fun a b => a.dayNumber ≤ b.dayNumber) :=
    ((hp.filter notPaid).imp fun h => le_of_lt h)
  unfold selectBatch
  rw [sortByDay_eq_of_sorted _ hu]

/-- Prefix selection: filtering a list headed by `t` (whose days all
precede those of the remainder `d`) by "day among `t`'s days" returns
exactly `t`. -/
theorem filter_day_mem_prefix (t d : List EMI)
    (htops : ∀ x ∈ t, ∀ y ∈ d, x.dayNumber < y.dayNumber) :
    (t ++ d).filter (fun e => (t.map (·.dayNumber)).contains e.dayNumber) = t := by
  rw [List.filter_append]
  have h1 : t.filter (fun e => (t.map (·.dayNumber)).contains e.dayNumber) = t := by
    apply List.filter_eq_self.mpr
    intro a ha
    simpa using List.mem_map_of_mem (·.dayNumber) ha
  have h2 : d.filter (fun e => (t.map (·.dayNumber)).contains e.dayNumber) = [] := by
    apply List.filter_eq_nil_iff.mpr
    intro a ha
    have hnm : a.dayNumber ∉ t.map (·.dayNumber) := by
      intro hmem
      obtain ⟨y, hy, hyday⟩ := List.mem_map.mp hmem
      have := htops y hy a ha
      omega
    simpa using hnm
  rw [h1, h2, List.append_nil]

/-- The marking predicate of `payBatch` selects exactly the batch members:
filtering the ledger by "unpaid and `dayNumber` among the batch's" returns
the batch itself. -/
theorem filter_selected_eq_selectBatch (st : LedgerState)
    (hpair : List.Pairwise (· < ·) (st.emis.map (·.dayNumber))) :
    st.emis.filter
        (fun e => notPaid e && ((selectBatch st).map (·.dayNumber)).contains e.dayNumber)
      = selectBatch st := by
  have hp : st.emis.Pairwise (fun a b => a.dayNumber < b.dayNumber) :=
    List.pairwise_map.mp hpair
  have hpu : (st.emis.filter notPaid).Pairwise (fun a b => a.dayNumber < b.dayNumber) :=
    hp.filter notPaid
  rw [selectBatch_eq_take st hpair]
  have hsplit :
      st.emis.filter
          (fun e => notPaid e
            && (((st.emis.filter notPaid).take 7).map (·.dayNumber)).contains e.dayNumber)
        = (st.emis.filter notPaid).filter
            (fun e => (((st.emis.filter notPaid).take 7).map (·.dayNumber)).contains
              e.dayNumber) := by
    rw [List.filter_filter]
    apply List.filter_congr
    intro x _
    exact Bool.and_comm _ _
  rw [hsplit]
  have htops : ∀ x ∈ (st.emis.filter notPaid).take 7,
      ∀ y ∈ (st.emis.filter notPaid).drop 7, x.dayNumber < y.dayNumber := by
    have h' := hpu
    rw [← List.take_append_drop 7 (st.emis.filter notPaid)] at h'
    exact (List.pairwise_append.mp h').2.2
  have hkey := filter_day_mem_prefix ((st.emis.filter notPaid).take 7)
    ((st.emis.filter notPaid).drop 7) htops
  rw [List.take_append_drop] at hkey
  exact hkey

/-- Settling a batch moves exactly the matching installments into the paid
filter: the paid-filter sum grows by the sum over the marked installments. -/
theorem payBatch_filter_paid_sum (g : EMI → ℤ) (sel : List EMI) (ref : String) (now : ℤ)
    (hg : ∀ x, g (markPaid ref now x) = g x) (l : List EMI) :
    (((payBatch sel ref now l).filter (fun e => e.status == EmiStatus.paid)).map g).sum
      = ((l.filter (fun e => e.status == EmiStatus.paid)).map g).sum
        + ((l.filter (fun e => notPaid e
            && (sel.map (·.dayNumber)).contains e.dayNumber)).map g).sum := by
  induction l with
  | nil => simp [payBatch]
  | cons x xs ih =>
      have hstep : payBatch sel ref now (x :: xs)
          = (if notPaid x && (sel.map (·.dayNumber)).contains x.dayNumber
              then markPaid ref now x else x) :: payBatch sel ref now xs := rfl
      rw [hstep]
      by_cases hc : (notPaid x && (sel.map (·.dayNumber)).contains x.dayNumber) = true
      · have hnp : (x.status == EmiStatus.paid) = false := by
          have := (Bool.and_eq_true _ _).mp hc
          unfold notPaid at this
          simpa using this.1
        rw [if_pos hc]
        simp only [List.filter_cons, hc, hnp]
        have hmp : ((markPaid ref now x).status == EmiStatus.paid) = true := by
          simp [markPaid]
        rw [hmp]
        simp [hg, ih]
        ring
      · rw [if_neg hc]
        simp only [List.filter_cons]
        rw [Bool.not_eq_true] at hc
        rw [hc]
        by_cases hp : (x.status == EmiStatus.paid) = true
        · rw [hp]
          simp [ih]
          ring
        · rw [Bool.not_eq_true] at hp
          rw [hp]
          simpa using ih

/-- Aggregate bookkeeping maintained by settlements when no already-paid
installment is ever re-settled: `totalPaid` equals the summed `totalAmount`
of paid installments, `remainingBalance` equals
`amount + totalInterest - Σ (principal+interest of paid installments)`, and
`dayNumber`s are strictly increasing in ledger order. -/
def AggregateInv (st : LedgerState) : Prop :=
  st.loan.totalPaid
    = ((st.emis.filter (fun e => e.status == EmiStatus.paid)).map (·.totalAmount)).sum ∧
  st.loan.remainingBalance
    = (st.loan.amount : ℚ) + totalInterest st.loan.amount
      - ((((st.emis.filter (fun e => e.status == EmiStatus.paid)).map
          (fun e => e.principalAmount + e.interestAmount)).sum : ℤ) : ℚ) ∧
  List.Pairwise (· < ·) (st.emis.map (·.dayNumber))

theorem aggregate_settleEmi (day : ℕ) (emi : EMI) (ref : String) (now : ℤ)
    (st : LedgerState)
    (hfind : st.emis.find? (fun e => e.dayNumber == day) = some emi)
    (hnp : ¬ emi.status = EmiStatus.paid)
    (h : AggregateInv st) : AggregateInv (settleEmi emi ref now st) := by
  obtain ⟨h1, h2, h3⟩ := h
  have hday : emi.dayNumber = day := by
    have := List.find?_some hfind
    simpa using this
  obtain ⟨-, hamt, -, hpaid, hrem, hemis⟩ := settleEmi_loan_spec emi ref now st
  rw [hday] at hemis
  refine ⟨?_, ?_, ?_⟩
  · rw [hpaid, hemis,
      filter_paid_sum_updateFirst (·.totalAmount) day ref now st.emis emi hfind hnp
        (fun x => rfl), h1]
  · rw [hrem, hemis,
      filter_paid_sum_updateFirst (fun e => e.principalAmount + e.interestAmount)
        day ref now st.emis emi hfind hnp (fun x => rfl), h2, hamt]
    push_cast
    ring
  · rw [hemis,
      updateFirstByDay_map_eq (·.dayNumber) day (markPaid ref now) (fun x => rfl) st.emis]
    exact h3

theorem payBatch_map_day (sel : List EMI) (ref : String) (now : ℤ) (l : List EMI) :
    (payBatch sel ref now l).map (·.dayNumber) = l.map (·.dayNumber) :=
  payBatch_map_eq (·.dayNumber) sel ref now (fun _ => rfl) l

theorem aggregate_batch_core (paymentId : String) (now : ℤ) (st : LedgerState)
    (h : AggregateInv st) (L' : Loan)
    (hTP : L'.totalPaid = st.loan.totalPaid + ((selectBatch st).map (·.totalAmount)).sum)
    (hRB : L'.remainingBalance = st.loan.remainingBalance
      - ((((selectBatch st).map (fun e => e.principalAmount + e.interestAmount)).sum : ℤ) : ℚ))
    (hA : L'.amount = st.loan.amount) :
    AggregateInv ⟨L', payBatch (selectBatch st) paymentId now st.emis⟩ := by
  obtain ⟨h1, h2, h3⟩ := h
  have hsel := filter_selected_eq_selectBatch st h3
  refine ⟨?_, ?_, ?_⟩
  · show L'.totalPaid = _
    rw [hTP,
      payBatch_filter_paid_sum (·.totalAmount) (selectBatch st) paymentId now
        (fun x => rfl) st.emis, h1, hsel]
  · show L'.remainingBalance = (L'.amount : ℚ) + totalInterest L'.amount - _
    rw [hRB, hA,
      payBatch_filter_paid_sum (fun e => e.principalAmount + e.interestAmount)
        (selectBatch st) paymentId now (fun x => rfl) st.emis, h2, hsel]
    push_cast
    ring
  · show List.Pairwise (· < ·)
        ((payBatch (selectBatch st) paymentId now st.emis).map (·.dayNumber))
    rw [payBatch_map_day]
    exact h3

theorem aggregate_autopayApply (paymentId : String) (now : ℤ) (st : LedgerState)
    (h : AggregateInv st) : AggregateInv (autopayApply paymentId now st) := by
  unfold autopayApply
  dsimp only
  exact aggregate_batch_core paymentId now st h _ rfl rfl rfl

theorem aggregate_webhookApply (paymentId : String) (now : ℤ) (st : LedgerState)
    (h : AggregateInv st) : AggregateInv (webhookApply paymentId now st) := by
  unfold webhookApply
  dsimp only
  by_cases hempty : (selectBatch st).isEmpty = true
  · rw [if_pos hempty]
    exact h
  · rw [if_neg hempty]
    by_cases hc : (payBatch (selectBatch st) paymentId now st.emis).countP notPaid = 0
    · rw [if_pos hc]
      exact aggregate_batch_core paymentId now st h _ rfl rfl rfl
    · rw [if_neg hc]
      exact aggregate_batch_core paymentId now st h _ rfl rfl rfl

theorem sweep_filter_paid (d : ℤ) (l : List EMI) :
    ((l.map fun e => (sweepEmi d e).1).filter (fun e => e.status == EmiStatus.paid))
      = l.filter (fun e => e.status == EmiStatus.paid) := by
  induction l with
  | nil => rfl
  | cons x xs ih =>
      simp only [List.map_cons, List.filter_cons]
      by_cases hp : x.status = EmiStatus.paid
      · rw [sweepEmi_of_paid d x hp]
        have hb : (x.status == EmiStatus.paid) = true := by simpa using hp
        rw [hb, ih]
      · have hb : (x.status == EmiStatus.paid) = false := by simpa using hp
        have hb' : ((sweepEmi d x).1.status == EmiStatus.paid) = false := by
          have hiff := sweepEmi_status_paid_iff d x
          simp only [beq_eq_false_iff_ne, ne_eq]
          intro hcon
          exact hp (hiff.mp hcon)
        rw [hb, hb']
        simp [ih]

theorem sweep_map_day (d : ℤ) (l : List EMI) :
    ((l.map fun e => (sweepEmi d e).1).map (·.dayNumber)) = l.map (·.dayNumber) := by
  rw [List.map_map]
  exact List.map_congr_left fun e _ => sweepEmi_day d e

theorem aggregate_sweep (d : ℤ) (st : LedgerState) (h : AggregateInv st) :
    AggregateInv (processOverdueEMIs d st).1 := by
  obtain ⟨h1, h2, h3⟩ := h
  refine ⟨?_, ?_, ?_⟩
  · show st.loan.totalPaid = _
    rw [show (processOverdueEMIs d st).1.emis
        = st.emis.map (fun e => (sweepEmi d e).1) from rfl, sweep_filter_paid, h1]
  · show st.loan.remainingBalance = _
    rw [show (processOverdueEMIs d st).1.emis
        = st.emis.map (fun e => (sweepEmi d e).1) from rfl, sweep_filter_paid, h2]
    rfl
  · rw [show (processOverdueEMIs d st).1.emis
        = st.emis.map (fun e => (sweepEmi d e).1) from rfl, sweep_map_day]
    exact h3

/-- Ledger states reachable when settlement is never replayed onto an
already-paid installment: same steps as `Reachable`, except that the
gateway-verified path (whose source lacks the already-paid guard) is only
invoked with a target that is not yet paid.  The other settlement paths
enforce this guard themselves. -/
inductive ReachableNoReplay : LedgerState → Prop where
  | approve (amount : ℤ) (totalDays : ℕ) (today : ℤ)
      (hlo : 1000 ≤ amount) (hhi : amount ≤ 100000)
      (hdlo : 1 ≤ totalDays) (hdhi : totalDays ≤ 365) :
      ReachableNoReplay (approveLoan amount totalDays today)
  | simulate {st : LedgerState} (day : ℕ) (now : ℤ) (h : ReachableNoReplay st) :
      ReachableNoReplay (applyResult st (simulatePay day now st))
  | verify {st : LedgerState} (hmac : String → String → String)
      (secret orderId paymentId signature : String) (day : ℕ) (now : ℤ)
      (h : ReachableNoReplay st)
      (hguard : ∀ emi, st.emis.find? (fun e => e.dayNumber == day) = some emi →
        ¬ emi.status = EmiStatus.paid) :
      ReachableNoReplay (applyResult st
        (verifyPayment hmac secret orderId paymentId signature day now st))
  | adminPaid {st : LedgerState} (day : ℕ) (now : ℤ) (adminRef : String)
      (h : ReachableNoReplay st) :
      ReachableNoReplay (applyResult st (adminMarkPaid day now adminRef st))
  | autopay {st : LedgerState} (hmac : String → String → String)
      (secret subscriptionId paymentId signature : String) (now : ℤ)
      (h : ReachableNoReplay st) :
      ReachableNoReplay (applyResult st
        (verifyAutopay hmac secret subscriptionId paymentId signature now st))
  | webhook {st : LedgerState} (hmac : String → String → String)
      (secret rawBody signature paymentId : String) (now : ℤ) (h : ReachableNoReplay st) :
      ReachableNoReplay (applyResult st
        (webhookCharged hmac secret rawBody signature paymentId now st))
  | sweep {st : LedgerState} (today : ℤ) (h : ReachableNoReplay st) :
      ReachableNoReplay (processOverdueEMIs today st).1

/-- Every replay-free execution is in particular an execution. -/
theorem reachableNoReplay_reachable {st : LedgerState} (h : ReachableNoReplay st) :
    Reachable st := by
  induction h with
  | approve amount totalDays today hlo hhi hdlo hdhi =>
      exact .approve amount totalDays today hlo hhi hdlo hdhi
  | simulate day now h ih => exact .simulate day now ih
  | verify hmac secret orderId paymentId signature day now h hguard ih =>
      exact .verify hmac secret orderId paymentId signature day now ih
  | adminPaid day now adminRef h ih => exact .adminPaid day now adminRef ih
  | autopay hmac secret subscriptionId paymentId signature now h ih =>
      exact .autopay hmac secret subscriptionId paymentId signature now ih
  | webhook hmac secret rawBody signature paymentId now h ih =>
      exact .webhook hmac secret rawBody signature paymentId now ih
  | sweep today h ih => exact .sweep today ih

theorem aggregate_approveLoan (amount : ℤ) (totalDays : ℕ) (today : ℤ) :
    AggregateInv (approveLoan amount totalDays today) := by
  have hfilter : (generateEMIs amount totalDays today).filter
      (fun e => e.status == EmiStatus.paid) = [] := by
    apply List.filter_eq_nil_iff.mpr
    intro e he
    simp only [generateEMIs, List.mem_map] at he
    obtain ⟨day, -, rfl⟩ := he
    simp
  refine ⟨?_, ?_, ?_⟩
  · show (0 : ℤ) = _
    rw [show (approveLoan amount totalDays today).emis
        = generateEMIs amount totalDays today from rfl, hfilter]
    rfl
  · show (amount : ℚ) + (amount : ℚ) * ((20 : ℚ) / 100) = _
    rw [show (approveLoan amount totalDays today).emis
        = generateEMIs amount totalDays today from rfl, hfilter]
    show _ = (amount : ℚ) + totalInterest amount - (((0 : ℤ) : ℚ))
    unfold totalInterest
    push_cast
    ring
  · show List.Pairwise (· < ·) ((generateEMIs amount totalDays today).map (·.dayNumber))
    have hmap : (generateEMIs amount totalDays today).map (·.dayNumber)
        = List.range' 1 totalDays := by
      simp [generateEMIs, List.map_map, Function.comp_def]
    rw [hmap]
    exact List.pairwise_lt_range' 1 totalDays

/-- The aggregate bookkeeping holds at every replay-free reachable state. -/
theorem reachableNoReplay_aggregate {st : LedgerState} (h : ReachableNoReplay st) :
    AggregateInv st := by
  induction h with
  | approve amount totalDays today hlo hhi hdlo hdhi =>
      exact aggregate_approveLoan amount totalDays today
  | simulate day now h ih =>
      refine applyResult_preserves _ _ _ ih ?_
      intro st' h'
      obtain ⟨emi, hfind, hnp, rfl⟩ := simulatePay_ok day now _ st' h'
      exact aggregate_settleEmi day emi _ now _ hfind hnp ih
  | verify hmac secret orderId paymentId signature day now h hguard ih =>
      refine applyResult_preserves _ _ _ ih ?_
      intro st' h'
      obtain ⟨emi, hfind, rfl⟩ :=
        verifyPayment_ok hmac secret orderId paymentId signature day now _ st' h'
      exact aggregate_settleEmi day emi _ now _ hfind (hguard emi hfind) ih
  | adminPaid day now adminRef h ih =>
      refine applyResult_preserves _ _ _ ih ?_
      intro st' h'
      obtain ⟨emi, hfind, hnp, rfl⟩ := adminMarkPaid_ok day now adminRef _ st' h'
      exact aggregate_settleEmi day emi _ now _ hfind hnp ih
  | autopay hmac secret subscriptionId paymentId signature now h ih =>
      refine applyResult_preserves _ _ _ ih ?_
      intro st' h'
      rw [verifyAutopay_ok hmac secret subscriptionId paymentId signature now _ st' h']
      exact aggregate_autopayApply paymentId now _ ih
  | webhook hmac secret rawBody signature paymentId now h ih =>
      refine applyResult_preserves _ _ _ ih ?_
      intro st' h'
      rw [webhookCharged_ok hmac secret rawBody signature paymentId now _ st' h']
      exact aggregate_webhookApply paymentId now _ ih
  | sweep today h ih =>
      exact aggregate_sweep today _ ih

/-- C7 is false on the code as written: after the gateway-verified path
re-settles the already-paid installment of the 1000×1-day loan (a reachable
execution, since `/verify` has no already-paid guard), the loan's
`remainingBalance` is −1200 while
`amount + totalInterest - Σ(principal+interest of paid installments) = 0`. -/
theorem remaining_balance_equation_counterexample :
    Reachable verifyRetryEnd ∧
    ¬ (verifyRetryEnd.loan.remainingBalance
        = (verifyRetryEnd.loan.amount : ℚ) + totalInterest verifyRetryEnd.loan.amount
          - ((((verifyRetryEnd.emis.filter (fun e => e.status == EmiStatus.paid)).map
              (fun e => e.principalAmount + e.interestAmount)).sum : ℤ) : ℚ)) := by
  constructor
  · unfold verifyRetryEnd verifyRetryStart
    exact .verify hmacConcat "secret" "order1" "pay1"
      (hmacConcat "secret" ("order1" ++ "|" ++ "pay1")) 1 2
      (.simulate 1 0
        (.approve 1000 1 0 (by norm_num) (by norm_num) (by norm_num) (by norm_num)))
  · have hsum : ((verifyRetryEnd.emis.filter (fun e => e.status == EmiStatus.paid)).map
        (fun e => e.principalAmount + e.interestAmount)).sum = 1200 := by
      unfold verifyRetryEnd verifyRetryStart
      rw [approveLoan_1000_1_eval]
      decide
    have hamt : verifyRetryEnd.loan.amount = 1000 := by
      unfold verifyRetryEnd verifyRetryStart
      rw [approveLoan_1000_1_eval]
      decide
    have hbal : verifyRetryEnd.loan.remainingBalance
        = 1200 - ((1000 + 200 : ℤ) : ℚ) - ((1000 + 200 : ℤ) : ℚ) := by
      unfold verifyRetryEnd verifyRetryStart
      rw [approveLoan_1000_1_eval]
      rfl
    intro hcon
    rw [hsum, hamt, hbal] at hcon
    norm_num [totalInterest] at hcon

/-- C7 (amended): on every replay-free execution,
`loan.totalPaid = Σ(totalAmount of paid installments)` and
`loan.remainingBalance = amount + totalInterest - Σ(principal+interest of
paid installments)` — each settlement adds the settled installment's
`totalAmount` to `totalPaid` and subtracts only its principal+interest from
`remainingBalance`, penalty excluded.  (The gateway-verified path can break
this by re-settling a paid installment, which the replay-free hypothesis
excludes.) -/
theorem settlement_aggregate_invariant {st : LedgerState} (h : ReachableNoReplay st) :
    st.loan.totalPaid
      = ((st.emis.filter (fun e => e.status == EmiStatus.paid)).map (·.totalAmount)).sum ∧
    st.loan.remainingBalance
      = (st.loan.amount : ℚ) + totalInterest st.loan.amount
        - ((((st.emis.filter (fun e => e.status == EmiStatus.paid)).map
            (fun e => e.principalAmount + e.interestAmount)).sum : ℤ) : ℚ) :=
  ⟨(reachableNoReplay_aggregate h).1, (reachableNoReplay_aggregate h).2.1⟩

/-- Witness for the amended C7 after one `/simulate` settlement on the
1000×3-day loan. -/
theorem settlement_aggregate_invariant_witness :
    ReachableNoReplay
      (applyResult (approveLoan 1000 3 0) (simulatePay 1 5 (approveLoan 1000 3 0))) ∧
    ((applyResult (approveLoan 1000 3 0)
        (simulatePay 1 5 (approveLoan 1000 3 0))).loan.totalPaid
      = (((applyResult (approveLoan 1000 3 0)
            (simulatePay 1 5 (approveLoan 1000 3 0))).emis.filter
          (fun e => e.status == EmiStatus.paid)).map (·.totalAmount)).sum ∧
    (applyResult (approveLoan 1000 3 0)
        (simulatePay 1 5 (approveLoan 1000 3 0))).loan.remainingBalance
      = ((applyResult (approveLoan 1000 3 0)
            (simulatePay 1 5 (approveLoan 1000 3 0))).loan.amount : ℚ)
          + totalInterest (applyResult (approveLoan 1000 3 0)
              (simulatePay 1 5 (approveLoan 1000 3 0))).loan.amount
          - (((((applyResult (approveLoan 1000 3 0)
                (simulatePay 1 5 (approveLoan 1000 3 0))).emis.filter
              (fun e => e.status == EmiStatus.paid)).map
              (fun e => e.principalAmount + e.interestAmount)).sum : ℤ) : ℚ)) :=
  have hr : ReachableNoReplay
      (applyResult (approveLoan 1000 3 0) (simulatePay 1 5 (approveLoan 1000 3 0))) :=
    .simulate 1 5
      (.approve 1000 3 0 (by norm_num) (by norm_num) (by norm_num) (by norm_num))
  ⟨hr, settlement_aggregate_invariant hr⟩

/-! ### Final balance of a fully settled loan -/

theorem amount_le_schedule (A : ℤ) {N : ℕ} (hN : 0 < N) :
    A ≤ (N : ℤ) * dailyPrincipal A N := by
  unfold dailyPrincipal
  have h' := le_mul_ceil_div (A : ℚ) hN
  rwa [Int.ceil_intCast] at h'

theorem schedule_principal_le (A : ℤ) {N : ℕ} (hN : 0 < N) :
    (N : ℤ) * dailyPrincipal A N ≤ A + ((N : ℤ) - 1) := by
  unfold dailyPrincipal
  have h' := mul_ceil_div_le (A : ℚ) hN
  rwa [Int.ceil_intCast] at h'

theorem interest_le_schedule (A : ℤ) {N : ℕ} (hN : 0 < N) :
    totalInterest A ≤ (((N : ℤ) * dailyInterest A N : ℤ) : ℚ) := by
  have h0 : ⌈totalInterest A⌉ ≤ (N : ℤ) * dailyInterest A N := by
    unfold dailyInterest
    exact le_mul_ceil_div (totalInterest A) hN
  calc totalInterest A ≤ (⌈totalInterest A⌉ : ℚ) := Int.le_ceil _
  _ ≤ _ := by exact_mod_cast h0

theorem schedule_interest_lt (A : ℤ) {N : ℕ} (hN : 0 < N) :
    (((N : ℤ) * dailyInterest A N : ℤ) : ℚ) < totalInterest A + (N : ℚ) := by
  have h0 : (N : ℤ) * dailyInterest A N ≤ ⌈totalInterest A⌉ + ((N : ℤ) - 1) := by
    unfold dailyInterest
    exact mul_ceil_div_le (totalInterest A) hN
  have h1 : (⌈totalInterest A⌉ : ℚ) < totalInterest A + 1 := Int.ceil_lt_add_one _
  have h2 : (((N : ℤ) * dailyInterest A N : ℤ) : ℚ)
      ≤ (⌈totalInterest A⌉ : ℚ) + ((N : ℚ) - 1) := by exact_mod_cast h0
  linarith

/-- C10 (amended): a replay-free fully settled loan ends with
`remainingBalance = (amount + totalInterest) -
totalDays * (dailyPrincipal + dailyInterest)`, which is ≤ 0, strictly
negative when `totalDays` divides neither `amount` nor `totalInterest`,
and always greater than `-(2*totalDays - 1)` (the claimed floor
`-(2*(totalDays-1))` is too tight; see the counterexample). -/
theorem completed_loan_final_balance {st : LedgerState} (h : ReachableNoReplay st)
    (hall : ∀ e ∈ st.emis, e.status = EmiStatus.paid) :
    st.loan.remainingBalance
      = ((st.loan.amount : ℚ) + totalInterest st.loan.amount)
        - (((st.loan.totalDays : ℤ)
            * (dailyPrincipal st.loan.amount st.loan.totalDays
              + dailyInterest st.loan.amount st.loan.totalDays) : ℤ) : ℚ) ∧
    st.loan.remainingBalance ≤ 0 ∧
    ((¬ ((st.loan.totalDays : ℤ) ∣ st.loan.amount) ∧
      ¬ (∃ k : ℤ, totalInterest st.loan.amount = (k : ℚ) * (st.loan.totalDays : ℚ))) →
      st.loan.remainingBalance < 0) ∧
    -(2 * (st.loan.totalDays : ℚ) - 1) < st.loan.remainingBalance := by
  obtain ⟨-, h2, -⟩ := reachableNoReplay_aggregate h
  obtain ⟨-, -, h3, h4⟩ := reachable_conservation (reachableNoReplay_reachable h)
  have hfilter : st.emis.filter (fun e => e.status == EmiStatus.paid) = st.emis := by
    apply List.filter_eq_self.mpr
    intro a ha
    simpa using hall a ha
  have hbal : st.loan.remainingBalance
      = ((st.loan.amount : ℚ) + totalInterest st.loan.amount)
        - (((st.loan.totalDays : ℤ)
            * (dailyPrincipal st.loan.amount st.loan.totalDays
              + dailyInterest st.loan.amount st.loan.totalDays) : ℤ) : ℚ) := by
    rw [h2, hfilter, h3]
  have hN : 0 < st.loan.totalDays := h4
  have hA := amount_le_schedule st.loan.amount hN
  have hAup := schedule_principal_le st.loan.amount hN
  have hI := interest_le_schedule st.loan.amount hN
  have hIup := schedule_interest_lt st.loan.amount hN
  have hA' : ((st.loan.amount : ℤ) : ℚ)
      ≤ (((st.loan.totalDays : ℤ) * dailyPrincipal st.loan.amount st.loan.totalDays : ℤ) : ℚ) := by
    exact_mod_cast hA
  have hAup' : (((st.loan.totalDays : ℤ)
        * dailyPrincipal st.loan.amount st.loan.totalDays : ℤ) : ℚ)
      ≤ (st.loan.amount : ℚ) + ((st.loan.totalDays : ℚ) - 1) := by
    exact_mod_cast hAup
  refine ⟨hbal, ?_, ?_, ?_⟩
  · rw [hbal]
    push_cast
    push_cast at hA' hI
    linarith
  · rintro ⟨hndvdA, hndvdI⟩
    have hAstrict : (st.loan.amount : ℚ)
        < (((st.loan.totalDays : ℤ)
            * dailyPrincipal st.loan.amount st.loan.totalDays : ℤ) : ℚ) := by
      rcases lt_or_eq_of_le hA with hlt | heq
      · exact_mod_cast hlt
      · exact absurd ⟨dailyPrincipal st.loan.amount st.loan.totalDays, heq⟩ hndvdA
    rw [hbal]
    push_cast
    push_cast at hAstrict hI
    linarith
  · rw [hbal]
    push_cast
    push_cast at hAup' hIup
    linarith

/-- The 1001×8-day loan at approval: `dailyPrincipal = ceil(1001/8) = 126`,
`dailyInterest = ceil(200.2/8) = 26`, eight pending installments of 152,
`remainingBalance = 1001 + 200.2 = 6006/5`. -/
theorem approveLoan_1001_8_eval :
    approveLoan 1001 8 0 =
      { loan :=
          { amount := 1001, totalDays := 8, interestRate := 20, totalPaid := 0
            remainingBalance := 6006 / 5, penaltyAmount := 0, status := .approved
            startDate := some 1, endDate := some 8, approvedAt := some 0
            autopayEnabled := false, autopayStatus := .none }
        emis := [⟨1, 126, 26, 0, 152, 1, .pending, Option.none, Option.none⟩,
                 ⟨2, 126, 26, 0, 152, 2, .pending, Option.none, Option.none⟩,
                 ⟨3, 126, 26, 0, 152, 3, .pending, Option.none, Option.none⟩,
                 ⟨4, 126, 26, 0, 152, 4, .pending, Option.none, Option.none⟩,
                 ⟨5, 126, 26, 0, 152, 5, .pending, Option.none, Option.none⟩,
                 ⟨6, 126, 26, 0, 152, 6, .pending, Option.none, Option.none⟩,
                 ⟨7, 126, 26, 0, 152, 7, .pending, Option.none, Option.none⟩,
                 ⟨8, 126, 26, 0, 152, 8, .pending, Option.none, Option.none⟩] } := by
  have hp : dailyPrincipal 1001 8 = 126 := by
    rw [dailyPrincipal_eval]; decide
  have hi : dailyInterest 1001 8 = 26 := by
    rw [dailyInterest_eval 1001 8 (by norm_num)]; decide
  simp [approveLoan, generateEMIs, hp, hi, List.range']
  norm_num

/-- One user-initiated `/simulate` settlement step (at time `day`). -/
def simStep (st : LedgerState) (day : ℕ) : LedgerState :=
  applyResult st (simulatePay day (day : ℤ) st)

/-- The 1001×8-day loan after all eight installments are settled through
`/simulate`. -/
def fullySettled1001 : LedgerState :=
  simStep (simStep (simStep (simStep (simStep (simStep (simStep (simStep
    (approveLoan 1001 8 0) 1) 2) 3) 4) 5) 6) 7) 8

/-- C10's bound is false: the reachable, fully settled 1001×8-day loan ends
with `remainingBalance = 6006/5 - 8*152 = -74/5 = -14.8`, strictly below
the claimed floor `-(2*(totalDays-1)) = -14` (the interest over-allocation
on a fractional `totalInterest = 200.2` exceeds `totalDays - 1`). -/
theorem final_balance_floor_counterexample :
    Reachable fullySettled1001 ∧
    (∀ e ∈ fullySettled1001.emis, e.status = EmiStatus.paid) ∧
    fullySettled1001.loan.remainingBalance
      < -(2 * ((fullySettled1001.loan.totalDays : ℚ) - 1)) := by
  refine ⟨?_, ?_, ?_⟩
  · unfold fullySettled1001 simStep
    exact .simulate 8 8 (.simulate 7 7 (.simulate 6 6 (.simulate 5 5 (.simulate 4 4
      (.simulate 3 3 (.simulate 2 2 (.simulate 1 1
        (.approve 1001 8 0 (by norm_num) (by norm_num) (by norm_num) (by norm_num)))))))))
  · unfold fullySettled1001 simStep
    rw [approveLoan_1001_8_eval]
    decide
  · have hdays : fullySettled1001.loan.totalDays = 8 := by
      unfold fullySettled1001 simStep
      rw [approveLoan_1001_8_eval]
      decide
    have hbal : fullySettled1001.loan.remainingBalance
        = 6006 / 5 - ((126 + 26 : ℤ) : ℚ) - ((126 + 26 : ℤ) : ℚ) - ((126 + 26 : ℤ) : ℚ)
          - ((126 + 26 : ℤ) : ℚ) - ((126 + 26 : ℤ) : ℚ) - ((126 + 26 : ℤ) : ℚ)
          - ((126 + 26 : ℤ) : ℚ) - ((126 + 26 : ℤ) : ℚ) := by
      unfold fullySettled1001 simStep
      rw [approveLoan_1001_8_eval]
      rfl
    rw [hbal, hdays]
    norm_num

/-! ### Batched settlement: selection and marking -/

/-- Marking by `dayNumber` membership coincides with marking by batch
membership when `dayNumber`s are strictly increasing. -/
theorem payBatch_eq_mark_mem (st : LedgerState) (ref : String) (now : ℤ)
    (hpair : List.Pairwise (· < ·) (st.emis.map (·.dayNumber))) :
    payBatch (selectBatch st) ref now st.emis
      = st.emis.map (fun e => if e ∈ selectBatch st then markPaid ref now e else e) := by
  have hp : st.emis.Pairwise (fun a b => a.dayNumber < b.dayNumber) :=
    List.pairwise_map.mp hpair
  have hsub : ∀ y ∈ selectBatch st, y ∈ st.emis.filter notPaid := by
    intro y hy
    rw [selectBatch_eq_take st hpair] at hy
    exact List.take_subset 7 _ hy
  unfold payBatch
  apply List.map_congr_left
  intro e he
  by_cases hm : e ∈ selectBatch st
  · rw [if_pos hm, if_pos]
    have hu := hsub e hm
    have hnp : notPaid e = true := (List.mem_filter.mp hu).2
    rw [hnp]
    simpa using List.mem_map_of_mem (·.dayNumber) hm
  · rw [if_neg hm, if_neg]
    intro hc
    obtain ⟨-, hdaymem⟩ := (Bool.and_eq_true _ _).mp hc
    obtain ⟨y, hy, hyday⟩ := List.mem_map.mp (by simpa using hdaymem)
    have hyemis : y ∈ st.emis := List.mem_of_mem_filter (hsub y hy)
    have : e = y := day_injective_of_pairwise hp e he y hyemis hyday.symm
    exact hm (this ▸ hy)

/-- C8: a batched subscription-charge settlement selects exactly the
`min(7, k)` unpaid installments with the smallest `dayNumber`s (oldest
first), marks exactly those paid — recording the external payment reference
and a `paidAt` timestamp via `markPaid` — leaves every other installment
unchanged, and adds the batch's `totalAmount` sum to `loan.totalPaid`; the
webhook handler and the autopay-activation path behave identically. -/
theorem batched_settlement_oldest_first (st : LedgerState) (ref : String) (now : ℤ)
    (hpair : List.Pairwise (· < ·) (st.emis.map (·.dayNumber))) :
    (selectBatch st).length = min 7 (st.emis.filter notPaid).length ∧
    selectBatch st = (st.emis.filter notPaid).take 7 ∧
    (∀ x ∈ selectBatch st, ∀ y ∈ st.emis.filter notPaid, y ∉ selectBatch st →
      x.dayNumber < y.dayNumber) ∧
    (webhookApply ref now st).emis
      = st.emis.map (fun e => if e ∈ selectBatch st then markPaid ref now e else e) ∧
    (webhookApply ref now st).loan.totalPaid
      = st.loan.totalPaid + ((selectBatch st).map (·.totalAmount)).sum ∧
    (autopayApply ref now st).emis
      = st.emis.map (fun e => if e ∈ selectBatch st then markPaid ref now e else e) ∧
    (autopayApply ref now st).loan.totalPaid
      = st.loan.totalPaid + ((selectBatch st).map (·.totalAmount)).sum := by
  have htake := selectBatch_eq_take st hpair
  have hmark := payBatch_eq_mark_mem st ref now hpair
  have htops : ∀ x ∈ (st.emis.filter notPaid).take 7,
      ∀ y ∈ (st.emis.filter notPaid).drop 7, x.dayNumber < y.dayNumber := by
    have h' := (List.pairwise_map.mp hpair).filter notPaid
    rw [← List.take_append_drop 7 (st.emis.filter notPaid)] at h'
    exact (List.pairwise_append.mp h').2.2
  refine ⟨?_, htake, ?_, ?_, ?_, ?_, ?_⟩
  · rw [htake]
    exact List.length_take 7 _
  · intro x hx y hy hysel
    rw [htake] at hx hysel
    rcases (List.mem_append.mp (by rwa [List.take_append_drop] :
        y ∈ (st.emis.filter notPaid).take 7 ++ (st.emis.filter notPaid).drop 7))
      with hyt | hyd
    · exact absurd hyt hysel
    · exact htops x hx y hyd
  · unfold webhookApply
    dsimp only
    by_cases hempty : (selectBatch st).isEmpty = true
    · rw [if_pos hempty]
      have hnil : selectBatch st = [] := List.isEmpty_iff.mp hempty
      show st.emis = _
      rw [hnil]
      simp
    · rw [if_neg hempty]
      by_cases hc : (payBatch (selectBatch st) ref now st.emis).countP notPaid = 0
      · rw [if_pos hc]
        exact hmark
      · rw [if_neg hc]
        exact hmark
  · unfold webhookApply
    dsimp only
    by_cases hempty : (selectBatch st).isEmpty = true
    · rw [if_pos hempty]
      have hnil : selectBatch st = [] := List.isEmpty_iff.mp hempty
      rw [hnil]
      simp
    · rw [if_neg hempty]
      by_cases hc : (payBatch (selectBatch st) ref now st.emis).countP notPaid = 0
      · rw [if_pos hc]
      · rw [if_neg hc]
  · exact hmark
  · rfl

/-! ### Gateway signature verification -/

/-- C9: every gateway-sourced settlement request recomputes the HMAC over
its caller-specific canonical string (`order_id|payment_id` for `/verify`,
`payment_id|subscription_id` for `/verify-autopay`, the raw body for the
webhook) and, when the supplied signature differs, rejects the request with
no state change. -/
theorem gateway_signature_guard :
    (∀ (hmac : String → String → String) (secret orderId paymentId signature : String)
        (day : ℕ) (now : ℤ) (st : LedgerState),
      hmac secret (orderId ++ "|" ++ paymentId) ≠ signature →
        verifyPayment hmac secret orderId paymentId signature day now st
          = .error "Payment verification failed" ∧
        applyResult st
          (verifyPayment hmac secret orderId paymentId signature day now st) = st) ∧
    (∀ (hmac : String → String → String)
        (secret subscriptionId paymentId signature : String) (now : ℤ) (st : LedgerState),
      hmac secret (paymentId ++ "|" ++ subscriptionId) ≠ signature →
        verifyAutopay hmac secret subscriptionId paymentId signature now st
          = .error "Autopay verification failed" ∧
        applyResult st
          (verifyAutopay hmac secret subscriptionId paymentId signature now st) = st) ∧
    (∀ (hmac : String → String → String)
        (secret rawBody signature paymentId : String) (now : ℤ) (st : LedgerState),
      hmac secret rawBody ≠ signature →
        webhookCharged hmac secret rawBody signature paymentId now st
          = .error "Invalid signature" ∧
        applyResult st
          (webhookCharged hmac secret rawBody signature paymentId now st) = st) := by
  refine ⟨?_, ?_, ?_⟩
  · intro hmac secret orderId paymentId signature day now st h
    have herr : verifyPayment hmac secret orderId paymentId signature day now st
        = .error "Payment verification failed" := by
      unfold verifyPayment
      rw [if_pos h]
    exact ⟨herr, by rw [herr]; rfl⟩
  · intro hmac secret subscriptionId paymentId signature now st h
    have herr : verifyAutopay hmac secret subscriptionId paymentId signature now st
        = .error "Autopay verification failed" := by
      unfold verifyAutopay
      rw [if_pos h]
    exact ⟨herr, by rw [herr]; rfl⟩
  · intro hmac secret rawBody signature paymentId now st h
    have herr : webhookCharged hmac secret rawBody signature paymentId now st
        = .error "Invalid signature" := by
      unfold webhookCharged
      rw [if_pos h]
    exact ⟨herr, by rw [herr]; rfl⟩

/-- The 10000×100-day loan at approval (the specification's scenario):
`dailyPrincipal = 100`, `dailyInterest = 20`, 100 pending installments of
120, `remainingBalance = 12000`. -/
theorem approveLoan_10000_100_eval :
    approveLoan 10000 100 0 =
      { loan :=
          { amount := 10000, totalDays := 100, interestRate := 20, totalPaid := 0
            remainingBalance := 12000, penaltyAmount := 0, status := .approved
            startDate := some 1, endDate := some 100, approvedAt := some 0
            autopayEnabled := false, autopayStatus := .none }
        emis := (List.range' 1 100).map fun day =>
          ⟨day, 100, 20, 0, 120, 0 + 1 + (day : ℤ) - 1, .pending,
            Option.none, Option.none⟩ } := by
  have hp : dailyPrincipal 10000 100 = 100 := by
    rw [dailyPrincipal_eval]; decide
  have hi : dailyInterest 10000 100 = 20 := by
    rw [dailyInterest_eval 10000 100 (by norm_num)]; decide
  simp [approveLoan, generateEMIs, hp, hi]
  norm_num

set_option maxRecDepth 8000 in
/-- Witness for C8 at the specification's scenario: on the 10000×100-day
loan the batch is the 7 oldest pending installments of 120 each, and the
webhook settlement increases `loan.totalPaid` by `7 * 120 = 840`. -/
theorem batched_settlement_oldest_first_witness :
    List.Pairwise (· < ·) ((approveLoan 10000 100 0).emis.map (·.dayNumber)) ∧
    ((selectBatch (approveLoan 10000 100 0)).length
        = min 7 ((approveLoan 10000 100 0).emis.filter notPaid).length ∧
      selectBatch (approveLoan 10000 100 0)
        = ((approveLoan 10000 100 0).emis.filter notPaid).take 7 ∧
      (∀ x ∈ selectBatch (approveLoan 10000 100 0),
        ∀ y ∈ (approveLoan 10000 100 0).emis.filter notPaid,
          y ∉ selectBatch (approveLoan 10000 100 0) → x.dayNumber < y.dayNumber) ∧
      (webhookApply "pay_w" 5 (approveLoan 10000 100 0)).emis
        = (approveLoan 10000 100 0).emis.map
            (fun e => if e ∈ selectBatch (approveLoan 10000 100 0)
              then markPaid "pay_w" 5 e else e) ∧
      (webhookApply "pay_w" 5 (approveLoan 10000 100 0)).loan.totalPaid
        = (approveLoan 10000 100 0).loan.totalPaid
          + ((selectBatch (approveLoan 10000 100 0)).map (·.totalAmount)).sum ∧
      (autopayApply "pay_w" 5 (approveLoan 10000 100 0)).emis
        = (approveLoan 10000 100 0).emis.map
            (fun e => if e ∈ selectBatch (approveLoan 10000 100 0)
              then markPaid "pay_w" 5 e else e) ∧
      (autopayApply "pay_w" 5 (approveLoan 10000 100 0)).loan.totalPaid
        = (approveLoan 10000 100 0).loan.totalPaid
          + ((selectBatch (approveLoan 10000 100 0)).map (·.totalAmount)).sum) ∧
    (webhookApply "pay_w" 5 (approveLoan 10000 100 0)).loan.totalPaid = 840 := by
  refine ⟨by decide, batched_settlement_oldest_first _ "pay_w" 5 (by decide), ?_⟩
  rw [approveLoan_10000_100_eval]
  decide

/-- Witness for C9: forged signatures are rejected with unchanged state on
all three gateway paths. -/
theorem gateway_signature_guard_witness :
    (hmacConcat "sec" ("o" ++ "|" ++ "p") ≠ "forged") ∧
    (verifyPayment hmacConcat "sec" "o" "p" "forged" 1 0 (approveLoan 1000 1 0)
        = .error "Payment verification failed" ∧
      applyResult (approveLoan 1000 1 0)
        (verifyPayment hmacConcat "sec" "o" "p" "forged" 1 0 (approveLoan 1000 1 0))
        = approveLoan 1000 1 0) ∧
    (hmacConcat "sec" ("p" ++ "|" ++ "s") ≠ "forged") ∧
    (verifyAutopay hmacConcat "sec" "s" "p" "forged" 0 (approveLoan 1000 1 0)
        = .error "Autopay verification failed" ∧
      applyResult (approveLoan 1000 1 0)
        (verifyAutopay hmacConcat "sec" "s" "p" "forged" 0 (approveLoan 1000 1 0))
        = approveLoan 1000 1 0) ∧
    (hmacConcat "sec" "body" ≠ "forged") ∧
    (webhookCharged hmacConcat "sec" "body" "forged" "p" 0 (approveLoan 1000 1 0)
        = .error "Invalid signature" ∧
      applyResult (approveLoan 1000 1 0)
        (webhookCharged hmacConcat "sec" "body" "forged" "p" 0 (approveLoan 1000 1 0))
        = approveLoan 1000 1 0) :=
  ⟨by decide,
    gateway_signature_guard.1 hmacConcat "sec" "o" "p" "forged" 1 0
      (approveLoan 1000 1 0) (by decide),
    by decide,
    gateway_signature_guard.2.1 hmacConcat "sec" "s" "p" "forged" 0
      (approveLoan 1000 1 0) (by decide),
    by decide,
    gateway_signature_guard.2.2 hmacConcat "sec" "body" "forged" "p" 0
      (approveLoan 1000 1 0) (by decide)⟩

/-- Witness for the amended C10 at the fully settled 1001×8-day loan. -/
theorem completed_loan_final_balance_witness :
    ReachableNoReplay fullySettled1001 ∧
    (∀ e ∈ fullySettled1001.emis, e.status = EmiStatus.paid) ∧
    (fullySettled1001.loan.remainingBalance
      = ((fullySettled1001.loan.amount : ℚ)
          + totalInterest fullySettled1001.loan.amount)
        - (((fullySettled1001.loan.totalDays : ℤ)
            * (dailyPrincipal fullySettled1001.loan.amount fullySettled1001.loan.totalDays
              + dailyInterest fullySettled1001.loan.amount
                  fullySettled1001.loan.totalDays) : ℤ) : ℚ) ∧
    fullySettled1001.loan.remainingBalance ≤ 0 ∧
    ((¬ ((fullySettled1001.loan.totalDays : ℤ) ∣ fullySettled1001.loan.amount) ∧
      ¬ (∃ k : ℤ, totalInterest fullySettled1001.loan.amount
          = (k : ℚ) * (fullySettled1001.loan.totalDays : ℚ))) →
      fullySettled1001.loan.remainingBalance < 0) ∧
    -(2 * (fullySettled1001.loan.totalDays : ℚ) - 1)
      < fullySettled1001.loan.remainingBalance) := by
  have hr : ReachableNoReplay fullySettled1001 := by
    unfold fullySettled1001 simStep
    exact .simulate 8 8 (.simulate 7 7 (.simulate 6 6 (.simulate 5 5 (.simulate 4 4
      (.simulate 3 3 (.simulate 2 2 (.simulate 1 1
        (.approve 1001 8 0 (by norm_num) (by norm_num) (by norm_num) (by norm_num)))))))))
  have hall : ∀ e ∈ fullySettled1001.emis, e.status = EmiStatus.paid := by
    unfold fullySettled1001 simStep
    rw [approveLoan_1001_8_eval]
    decide
  exact ⟨hr, hall, completed_loan_final_balance hr hall⟩

end LoanLedger
